import Mathlib

/-!
Shallow embedding of the user-database synchronization subsystem of the
IoT dashboard repository (files `dashboard_server_cloud.py` and `auth_db.py`).

The embedding covers:
* a model of Python `datetime.fromisoformat` restricted to the timestamp
  shapes this system produces (`YYYY-MM-DD`, optionally followed by a `T` or
  space separator and `HH[:MM[:SS[.f{1..6}]]]`, optionally a `±HH:MM` UTC
  offset; the handler first replaces `Z` by `+00:00` as the source does);
* the `users` table of `auth_db.py` (schema constraints included:
  `username` UNIQUE NOT NULL, `password_hash`/`nome`/`cognome` NOT NULL,
  `ruolo` CHECK-constrained to a closed set);
* the sync endpoints `get_users_for_sync` / `receive_users_for_sync` of
  `dashboard_server_cloud.py`, with Python dictionary access (`d[k]` raising
  `KeyError`, `d.get(k)` returning `None`), per-record try/except, and the
  commit-once-after-the-loop transaction semantics (an escaping exception
  means the connection is never committed, so all the batch's writes are
  rolled back and a 500 response is returned);
* the `login`, `register_user` and `update_user` operations of `auth_db.py`.
-/

namespace WotSync

/-! ### Timestamps -/

/-- A parsed timestamp: microseconds since the epoch (UTC instant for an
offset-aware timestamp, wall-clock for a naive one) together with the
awareness flag.  Mirrors the two facts about a Python `datetime` that the
sync handler can observe: subtraction/comparison of two same-awareness
values compares these microsecond counts, while mixing a naive and an
aware value raises `TypeError`. -/
structure TS where
  micros : Int
  aware : Bool
deriving DecidableEq

/-- Numeric value of a decimal digit character. -/
def digitVal (c : Char) : Nat := c.toNat - 48

/-- Value of a two-digit group. -/
def digits2 (a b : Char) : Nat := 10 * digitVal a + digitVal b

/-- Value of a four-digit group. -/
def digits4 (a b c d : Char) : Nat :=
  1000 * digitVal a + 100 * digitVal b + 10 * digitVal c + digitVal d

/-- Value of a digit list read most-significant first. -/
def digitsToNat (cs : List Char) : Nat :=
  cs.foldl (fun a c => 10 * a + digitVal c) 0

/-- Gregorian leap-year test. -/
def isLeap (y : Nat) : Bool := y % 4 == 0 && (y % 100 != 0 || y % 400 == 0)

/-- Number of days of month `m` in year `y`. -/
def daysInMonth (y m : Nat) : Nat :=
  if m = 2 then (if isLeap y then 29 else 28)
  else if m = 4 ∨ m = 6 ∨ m = 9 ∨ m = 11 then 30 else 31

/-- Days from 1970-01-01 to the civil date `y-m-d` (proleptic Gregorian,
valid for years ≥ 1, the range Python `datetime` supports). -/
def daysFromCivil (y m d : Nat) : Int :=
  let yy : Int := (y : Int) - (if m ≤ 2 then 1 else 0)
  let era : Int := yy / 400
  let yoe : Int := yy - era * 400
  let mp : Int := ((m : Int) + 9) % 12
  let doy : Int := (153 * mp + 2) / 5 + (d : Int) - 1
  let doe : Int := yoe * 365 + yoe / 4 - yoe / 100 + doy
  era * 146097 + doe - 719468

/-- Assemble a `TS` from date/time fields, fractional microseconds and an
optional UTC offset (in microseconds).  An aware timestamp is normalised to
its UTC instant, which is how Python compares aware datetimes. -/
def tsOfParts (y mo d h mi s frac : Nat) (off : Option Int) : TS :=
  let dayMicros : Int := ((h * 3600 + mi * 60 + s) * 1000000 + frac : Nat)
  let base : Int := daysFromCivil y mo d * 86400000000 + dayMicros
  match off with
  | none => ⟨base, false⟩
  | some o => ⟨base - o, true⟩

/-- Parse a trailing UTC offset `±HH:MM`; an empty remainder means a naive
timestamp.  Returns the offset in microseconds. -/
def parseOffset : List Char → Option (Option Int)
  | [] => some none
  | [sign, h1, h2, ':', m1, m2] =>
    if (sign = '+' ∨ sign = '-') ∧ [h1, h2, m1, m2].all Char.isDigit then
      let hh := digits2 h1 h2
      let mm := digits2 m1 m2
      if hh ≤ 23 ∧ mm ≤ 59 then
        let mag : Int := ((hh * 3600 + mm * 60) * 1000000 : Nat)
        some (some (if sign = '-' then -mag else mag))
      else none
    else none
  | _ => none

/-- Parse an optional fractional-second part (1 to 6 digits) followed by an
optional offset.  Returns the fraction in microseconds and the offset. -/
def parseFracOffset (cs : List Char) : Option (Nat × Option Int) :=
  match cs with
  | '.' :: rest =>
    let fs := rest.takeWhile Char.isDigit
    let rest2 := rest.dropWhile Char.isDigit
    if 1 ≤ fs.length ∧ fs.length ≤ 6 then
      match parseOffset rest2 with
      | some off => some (digitsToNat fs * 10 ^ (6 - fs.length), off)
      | none => none
    else none
  | _ => (fun off => ((0 : Nat), off)) <$> parseOffset cs

/-- Parse the time-of-day part `HH[:MM[:SS[.frac]]][±HH:MM]`.  Returns
hour, minute, second, fractional microseconds and the optional offset. -/
def parseTime (cs : List Char) : Option (Nat × Nat × Nat × Nat × Option Int) :=
  match cs with
  | h1 :: h2 :: rest =>
    if [h1, h2].all Char.isDigit then
      let hh := digits2 h1 h2
      if hh ≤ 23 then
        match rest with
        | [] => some (hh, 0, 0, 0, none)
        | ':' :: m1 :: m2 :: rest2 =>
          if [m1, m2].all Char.isDigit then
            let mm := digits2 m1 m2
            if mm ≤ 59 then
              match rest2 with
              | ':' :: s1 :: s2 :: rest3 =>
                if [s1, s2].all Char.isDigit then
                  let ss := digits2 s1 s2
                  if ss ≤ 59 then
                    match parseFracOffset rest3 with
                    | some (frac, off) => some (hh, mm, ss, frac, off)
                    | none => none
                  else none
                else none
              | rest2 =>
                match parseOffset rest2 with
                | some off => some (hh, mm, 0, 0, off)
                | none => none
            else none
          else none
        | _ => none
      else none
    else none
  | _ => none

/-- Parse an ISO timestamp character list: `YYYY-MM-DD`, optionally a `T`
or space separator and a time-of-day part. -/
def parseTSList : List Char → Option TS
  | y1 :: y2 :: y3 :: y4 :: '-' :: mo1 :: mo2 :: '-' :: d1 :: d2 :: rest =>
    if [y1, y2, y3, y4, mo1, mo2, d1, d2].all Char.isDigit then
      let y := digits4 y1 y2 y3 y4
      let mo := digits2 mo1 mo2
      let d := digits2 d1 d2
      if 1 ≤ y ∧ y ≤ 9999 ∧ 1 ≤ mo ∧ mo ≤ 12 ∧ 1 ≤ d ∧ d ≤ daysInMonth y mo then
        match rest with
        | [] => some (tsOfParts y mo d 0 0 0 0 none)
        | sep :: trest =>
          if sep = 'T' ∨ sep = ' ' then
            match parseTime trest with
            | some (h, mi, s, frac, off) => some (tsOfParts y mo d h mi s frac off)
            | none => none
          else none
      else none
    else none
  | _ => none

/-- Model of Python `datetime.fromisoformat` on the timestamp shapes this
system produces; `none` models the `ValueError` raised on other strings. -/
def parseTS (s : String) : Option TS := parseTSList s.data

/-- Character-level replacement of every `Z` by `+00:00`. -/
def replaceZChars : List Char → List Char
  | [] => []
  | c :: cs => (if c = 'Z' then ['+', '0', '0', ':', '0', '0'] else [c]) ++ replaceZChars cs

/-- The handler's `s.replace(Z, +00:00)` preprocessing: Python
`str.replace` replaces every occurrence of the one-character pattern. -/
def pyReplaceZ (s : String) : String := ⟨replaceZChars s.data⟩

/-- Difference `a - b` of two datetimes in microseconds; `none` models the
`TypeError` Python raises when subtracting or comparing a naive and an
offset-aware datetime. -/
def tsSub (a b : TS) : Option Int :=
  if a.aware = b.aware then some (a.micros - b.micros) else none

/-! ### The users table and incoming JSON records -/

/-- A stored row of the `users` table (schema in `auth_db.init_database`).
`username`, `password_hash`, `nome`, `cognome`, `ruolo` are NOT NULL;
`created_at`, `last_login` and `updated_at` are nullable. -/
structure User where
  id : Int
  username : String
  password_hash : String
  nome : String
  cognome : String
  ruolo : String
  created_at : Option String
  last_login : Option String
  updated_at : Option String
deriving DecidableEq

/-- The users table, rows in rowid order. -/
abbrev DB := List User

/-- An incoming JSON user object of a `POST /api/users/sync` body.  The
outer `Option` is key presence (`none` = key absent, so `d[k]` raises
`KeyError`), the inner `Option` is JSON null.  The model restricts JSON
field values to strings or null (and an integer for `id`), the shapes the
sync peers actually exchange. -/
structure JUser where
  id : Option Int := none
  username : Option (Option String) := none
  password_hash : Option (Option String) := none
  nome : Option (Option String) := none
  cognome : Option (Option String) := none
  ruolo : Option (Option String) := none
  created_at : Option (Option String) := none
  last_login : Option (Option String) := none
  updated_at : Option (Option String) := none
deriving DecidableEq

/-- Python exception classes that can escape an SQL statement or a
dictionary access in the handler.  All of them are caught alike by the
bare `except Exception` blocks. -/
inductive PyExc where
  | keyError
  | valueError
  | typeError
  | integrityError
deriving DecidableEq

/-- Python `d[k]`: raises `KeyError` when the key is absent. -/
def item {α : Type} (f : Option α) : Except PyExc α :=
  match f with
  | none => .error .keyError
  | some v => .ok v

/-- Python `d.get(k)`: `None` both for an absent key and for JSON null. -/
def pyGet (f : Option (Option String)) : Option String := f.getD none

/-- Python truthiness of a string-or-None value: `None` and the empty
string are falsy. -/
def truthy : Option String → Bool
  | none => false
  | some s => s != ""

/-- The CHECK constraint on `ruolo` in the `users` schema. -/
def validRuolo (r : String) : Bool :=
  r == "paziente" || r == "medico" || r == "admin"

/-- The row the handler's INSERT statement writes: the incoming payload
verbatim, nullable columns through `user.get`. -/
def insertedRow (user : JUser) (uid : Int) (un pw nm cg rl : String) : User :=
  { id := uid, username := un, password_hash := pw, nome := nm, cognome := cg,
    ruolo := rl, created_at := pyGet user.created_at,
    last_login := pyGet user.last_login, updated_at := pyGet user.updated_at }

/-- The handler's INSERT statement (`INSERT INTO users (id, username,
password_hash, nome, cognome, ruolo, created_at, last_login, updated_at)`),
parameters evaluated in source order (a missing key raises `KeyError`
before the statement runs), then the schema constraints: NOT NULL on the
payload columns, the `ruolo` CHECK, UNIQUE on `username`, and primary-key
uniqueness on `id`.  A violation raises `IntegrityError`. -/
def insertUser (db : DB) (user : JUser) : Except PyExc DB := do
  let uid ← item user.id
  let uname ← item user.username
  let pw ← item user.password_hash
  let nm ← item user.nome
  let cg ← item user.cognome
  let rl ← item user.ruolo
  match uname, pw, nm, cg, rl with
  | some uname, some pw, some nm, some cg, some rl =>
    if !validRuolo rl then .error .integrityError
    else if db.any (fun r => r.username == uname) then .error .integrityError
    else if db.any (fun r => r.id == uid) then .error .integrityError
    else .ok (db ++ [insertedRow user uid uname pw nm cg rl])
  | _, _, _, _, _ => .error .integrityError

/-- The row produced by the handler's UPDATE statement for a matching row
`r`: every column is replaced by the incoming value (full-record
replace). -/
def updatedRow (user : JUser) (uname pw nm cg rl : String)
    (updAt : Option String) (r : User) : User :=
  { r with username := uname, password_hash := pw, nome := nm, cognome := cg,
           ruolo := rl, created_at := pyGet user.created_at,
           last_login := pyGet user.last_login, updated_at := updAt }

/-- The handler's UPDATE statement (`UPDATE users SET username=?,
password_hash=?, nome=?, cognome=?, ruolo=?, created_at=?, last_login=?,
updated_at=? WHERE id=?`), parameters evaluated in source order, then the
schema constraints on the written row (NOT NULL, `ruolo` CHECK, and
UNIQUE `username` against every other row). -/
def updateUser (db : DB) (user : JUser) : Except PyExc DB := do
  let uname ← item user.username
  let pw ← item user.password_hash
  let nm ← item user.nome
  let cg ← item user.cognome
  let rl ← item user.ruolo
  let updAt ← item user.updated_at
  let uid ← item user.id
  match uname, pw, nm, cg, rl with
  | some uname, some pw, some nm, some cg, some rl =>
    if !validRuolo rl then .error .integrityError
    else if db.any (fun r => decide (r.id ≠ uid) && r.username == uname) then
      .error .integrityError
    else .ok (db.map (fun r =>
      if r.id == uid then updatedRow user uname pw nm cg rl updAt r else r))
  | _, _, _, _, _ => .error .integrityError

/-! ### The merge loop of `receive_users_for_sync` -/

/-- A conflict entry appended to the response's `conflicts` list.
`local_ts`/`incoming_ts` are present only on `local_newer` entries. -/
structure Conflict where
  cid : Int
  username : Option String
  reason : String
  local_ts : Option String := none
  incoming_ts : Option String := none
deriving DecidableEq

/-- Per-record decision of the merge loop. -/
inductive Outcome where
  | noop
  | updatedO
  | insertedO
  | conflictO (c : Conflict)
deriving DecidableEq

/-- The body of the per-record `try` block for a record whose `id` already
exists locally (`existingUpd` is the stored row's `updated_at`): the
missing-timestamp quarantine, the two `fromisoformat` calls, the 1-second
tolerance, the strictly-newer UPDATE and the `local_newer` report.  An
`error` result models an exception reaching the matching `except`. -/
def tryBody (db : DB) (user : JUser) (uid : Int) (existingUpd : Option String) :
    Except PyExc (DB × Outcome) := do
  let incoming_updated := pyGet user.updated_at
  if !truthy incoming_updated || !truthy existingUpd then do
    let uname ← item user.username
    pure (db, .conflictO { cid := uid, username := uname, reason := "missing_timestamp" })
  else
    let iStr := incoming_updated.getD ""
    let eStr := existingUpd.getD ""
    match parseTS (pyReplaceZ iStr), parseTS (pyReplaceZ eStr) with
    | some its, some ets =>
      match tsSub its ets with
      | some d =>
        if d.natAbs < 1000000 then pure (db, .noop)
        else if d > 0 then do
          let db' ← updateUser db user
          pure (db', .updatedO)
        else do
          let uname ← item user.username
          pure (db, .conflictO { cid := uid, username := uname, reason := "local_newer",
                                 local_ts := some eStr, incoming_ts := some iStr })
      | none => .error .typeError
    | _, _ => .error .valueError

/-- One iteration of the merge loop: look the record up by `id`, and
either run the guarded timestamp comparison (whose exceptions are caught
and reclassified as a `timestamp_parse_error` conflict, itself reading
`user[username]` and hence able to re-raise) or take the unguarded insert
path.  An `error` result is an exception escaping the loop. -/
def processUser (db : DB) (user : JUser) : Except PyExc (DB × Outcome) := do
  let uid ← item user.id
  match db.find? (fun r => r.id == uid) with
  | some existing =>
    match tryBody db user uid existing.updated_at with
    | .ok r => pure r
    | .error _ => do
      let uname ← item user.username
      pure (db, .conflictO { cid := uid, username := uname, reason := "timestamp_parse_error" })
  | none => do
    let db' ← insertUser db user
    pure (db', .insertedO)

/-- Accumulated result of the merge loop together with the table it
leaves behind. -/
structure BatchResult where
  db : DB
  updated : Nat
  inserted : Nat
  conflicts : List Conflict
deriving DecidableEq

/-- The merge loop with its accumulators, exactly as the source folds over
`users`, appending conflicts in order. -/
def runBatchAux (db : DB) (updated inserted : Nat) (conflicts : List Conflict) :
    List JUser → Except PyExc BatchResult
  | [] => .ok ⟨db, updated, inserted, conflicts⟩
  | u :: rest => do
    let (db', o) ← processUser db u
    match o with
    | .noop => runBatchAux db' updated inserted conflicts rest
    | .updatedO => runBatchAux db' (updated + 1) inserted conflicts rest
    | .insertedO => runBatchAux db' updated (inserted + 1) conflicts rest
    | .conflictO c => runBatchAux db' updated inserted (conflicts ++ [c]) rest

/-- The whole merge loop starting from empty accumulators. -/
def runBatch (db : DB) (users : List JUser) : Except PyExc BatchResult :=
  runBatchAux db 0 0 [] users

/-! ### The HTTP endpoints -/

/-- The token check `request.headers.get(X-Sync-Token) == SYNC_TOKEN`
(`reqToken = none` models an absent header, which compares unequal). -/
def verify_sync_token (syncToken : String) (reqToken : Option String) : Bool :=
  reqToken == some syncToken

/-- Response of `POST /api/users/sync`. -/
inductive PostResp where
  | http401
  | http400
  | http500
  | okResp (updated inserted : Nat) (conflicts : List Conflict) (timestamp : String)
deriving DecidableEq

/-- The `POST /api/users/sync` handler.  `body = none` models
`request.get_json()` returning `None` (the subsequent attribute access
raises and is caught by the outer handler, a 500).  An empty `users` list
is rejected with 400 before any database access.  The loop's writes are
committed once, after the loop; an exception escaping the loop reaches the
outer `except`, the connection is never committed, so every write of the
batch is rolled back and the table is returned unchanged with a 500. -/
def receive_users_for_sync (syncToken : String) (reqToken : Option String)
    (body : Option (List JUser)) (db : DB) (now : String) : PostResp × DB :=
  if !verify_sync_token syncToken reqToken then (.http401, db)
  else
    match body with
    | none => (.http500, db)
    | some users =>
      if users = [] then (.http400, db)
      else
        match runBatch db users with
        | .ok r => (.okResp r.updated r.inserted r.conflicts now, r.db)
        | .error _ => (.http500, db)

/-- Response of `GET /api/users/sync`. -/
inductive GetResp where
  | http401
  | okResp (users : List User) (count : Nat) (timestamp : String)
deriving DecidableEq

/-- The `GET /api/users/sync` handler: token check, then the full table
(`SELECT * FROM users`), its length and a timestamp. -/
def get_users_for_sync (syncToken : String) (reqToken : Option String)
    (db : DB) (now : String) : GetResp :=
  if !verify_sync_token syncToken reqToken then .http401
  else .okResp db db.length now

/-! ### The auth operations of `auth_db.py` -/

/-- A row of the `sessions` table (the fields `login` writes). -/
structure Session where
  user_id : Int
  session_token : String
  expires_at : String
deriving DecidableEq

/-- `AuthDB.login`: find the user by username, verify the password (the
bcrypt check is abstracted as the `verify` argument), insert a session row
and set `last_login = datetime(now)` on the user's row — and nothing
else.  Returns success, the users table and the sessions table. -/
def login (db : DB) (sessions : List Session) (username password : String)
    (verify : String → String → Bool) (sessionToken expiresAt now : String) :
    Bool × DB × List Session :=
  match db.find? (fun r => r.username == username) with
  | none => (false, db, sessions)
  | some user =>
    if !verify password user.password_hash then (false, db, sessions)
    else (true,
      db.map (fun r => if r.id == user.id then { r with last_login := some now } else r),
      sessions ++ [{ user_id := user.id, session_token := sessionToken,
                     expires_at := expiresAt }])

/-- `AuthDB.register_user`: role whitelist, username-uniqueness check,
then an INSERT that sets `updated_at = datetime(now)` (and `created_at`
via the column's CURRENT_TIMESTAMP default, `last_login` NULL).  `hash`
abstracts bcrypt; `newId` is the AUTOINCREMENT id SQLite assigns. -/
def register_user (db : DB) (username password nm cg rl : String)
    (hash : String → String) (newId : Int) (now : String) : Bool × DB :=
  if !validRuolo rl then (false, db)
  else if (db.find? (fun r => r.username == username)).isSome then (false, db)
  else (true, db ++ [{ id := newId, username := username,
                       password_hash := hash password, nome := nm, cognome := cg,
                       ruolo := rl, created_at := some now, last_login := none,
                       updated_at := some now }])

/-- The SET clause `update_user` builds: each truthy argument replaces its
column, and `updated_at = datetime(now)` is always appended. -/
def updateUserRow (nm cg rl newPassword : Option String)
    (hash : String → String) (now : String) (r : User) : User :=
  let r1 := match nm with
    | some s => if s != "" then { r with nome := s } else r
    | none => r
  let r2 := match cg with
    | some s => if s != "" then { r1 with cognome := s } else r1
    | none => r1
  let r3 := match rl with
    | some s => if s != "" then { r2 with ruolo := s } else r2
    | none => r2
  let r4 := match newPassword with
    | some s => if s != "" then { r3 with password_hash := hash s } else r3
    | none => r3
  { r4 with updated_at := some now }

/-- `AuthDB.update_user`: falsy arguments are skipped; a truthy invalid
role is rejected; with no field to update it errors; otherwise one UPDATE
of the chosen fields plus `updated_at = datetime(now)` runs, and a
rowcount of zero (unknown id) is reported as an error. -/
def update_user (db : DB) (user_id : Int) (nm cg rl newPassword : Option String)
    (hash : String → String) (now : String) : Bool × DB :=
  if truthy rl && !validRuolo (rl.getD "") then (false, db)
  else if !truthy nm && !truthy cg && !truthy rl && !truthy newPassword then (false, db)
  else if db.any (fun r => r.id == user_id) then
    (true, db.map (fun r =>
      if r.id == user_id then updateUserRow nm cg rl newPassword hash now r else r))
  else (false, db)

/-! ### Specification predicates and proof-side definitions -/

/-- An incoming record carrying an id and a parseable `updated_at`
timestamp string. -/
def GoodTs (u : JUser) : Prop :=
  ∃ n s t, u.id = some n ∧ u.updated_at = some (some s) ∧
    parseTS (pyReplaceZ s) = some t

/-- The record's id is stored, and the stored row's `updated_at` parses to
a timestamp of the same awareness within the 1-second tolerance of the
record's own timestamp: exactly the situation in which the merge loop
no-ops the record. -/
def Synced (db : DB) (u : JUser) : Prop :=
  ∃ n s t row s2 t2, u.id = some n ∧ u.updated_at = some (some s) ∧
    parseTS (pyReplaceZ s) = some t ∧
    db.find? (fun r => r.id == n) = some row ∧
    row.updated_at = some s2 ∧ parseTS (pyReplaceZ s2) = some t2 ∧
    t.aware = t2.aware ∧ (t.micros - t2.micros).natAbs < 1000000

/-- Continuation of the merge loop after one record's decision. -/
def runBatchStep (o : Outcome) (db1 : DB) (upd ins : Nat)
    (acc : List Conflict) (rest : List JUser) : Except PyExc BatchResult :=
  match o with
  | .noop => runBatchAux db1 upd ins acc rest
  | .updatedO => runBatchAux db1 (upd + 1) ins acc rest
  | .insertedO => runBatchAux db1 upd (ins + 1) acc rest
  | .conflictO c => runBatchAux db1 upd ins (acc ++ [c]) rest

/-! ### Concrete fixtures used by the closed instance theorems -/

/-- A stored admin row used by the concrete scenarios. -/
def rAlice : User :=
  { id := 1, username := "alice", password_hash := "hash-a",
    nome := "Anna", cognome := "Ludo", ruolo := "admin",
    created_at := some "2024-01-01 00:00:00", last_login := none,
    updated_at := some "2025-01-01T10:00:00" }

/-- A second stored row, username `bob`. -/
def rBob : User :=
  { id := 2, username := "bob", password_hash := "hash-b",
    nome := "Bruno", cognome := "Meo", ruolo := "medico",
    created_at := some "2024-01-01 00:00:00", last_login := none,
    updated_at := some "2025-01-01T10:00:00" }

/-- An incoming version of `rAlice`, five minutes newer, with different
payload and a different `created_at`. -/
def jMerge : JUser :=
  { id := some 1, username := some (some "alice"),
    password_hash := some (some "hash-a2"), nome := some (some "Anna2"),
    cognome := some (some "Ludo2"), ruolo := some (some "admin"),
    created_at := some (some "2024-06-01 00:00:00"), last_login := some none,
    updated_at := some (some "2025-01-01T10:05:00") }

/-- The row stored after `jMerge` wins the merge against `rAlice`. -/
def rMerged : User :=
  { id := 1, username := "alice", password_hash := "hash-a2",
    nome := "Anna2", cognome := "Ludo2", ruolo := "admin",
    created_at := some "2024-06-01 00:00:00", last_login := none,
    updated_at := some "2025-01-01T10:05:00" }

/-- An incoming record for id 1 that is newer but carries `rBob`'s
username: its UPDATE violates the UNIQUE constraint. -/
def jSteal : JUser :=
  { id := some 1, username := some (some "bob"),
    password_hash := some (some "hash-x"), nome := some (some "Nia"),
    cognome := some (some "Cog"), ruolo := some (some "paziente"),
    created_at := some none, last_login := some none,
    updated_at := some (some "2025-01-01T10:05:00") }

/-- An incoming version of `rAlice`, ten seconds older than the stored
row: the resolver reports `local_newer`. -/
def jOlder : JUser :=
  { id := some 1, username := some (some "alice"),
    password_hash := some (some "hash-old"), nome := some (some "Anna0"),
    cognome := some (some "Ludo0"), ruolo := some (some "admin"),
    created_at := some none, last_login := some none,
    updated_at := some (some "2025-01-01T09:59:50") }

/-- A well-formed new record (id 7, absent from the fixtures) with a null
`updated_at`. -/
def jNullTs : JUser :=
  { id := some 7, username := some (some "zed"),
    password_hash := some (some "hash-z"), nome := some (some "Zeta"),
    cognome := some (some "Zan"), ruolo := some (some "paziente"),
    created_at := some none, last_login := some none,
    updated_at := some none }

/-- The row `jNullTs` gets inserted as. -/
def rNullTs : User :=
  { id := 7, username := "zed", password_hash := "hash-z",
    nome := "Zeta", cognome := "Zan", ruolo := "paziente",
    created_at := none, last_login := none, updated_at := none }

/-- A well-formed new record (id 3, absent from the fixtures) whose
username collides with `rAlice`: its INSERT violates UNIQUE(username). -/
def jCollide : JUser :=
  { id := some 3, username := some (some "alice"),
    password_hash := some (some "hash-c"), nome := some (some "Cara"),
    cognome := some (some "Col"), ruolo := some (some "paziente"),
    created_at := some none, last_login := some none,
    updated_at := some (some "2025-01-01T10:05:00") }

/-- A well-formed new record, id 5, username fresh. -/
def jFresh : JUser :=
  { id := some 5, username := some (some "frank"),
    password_hash := some (some "hash-f"), nome := some (some "Fra"),
    cognome := some (some "Nk"), ruolo := some (some "medico"),
    created_at := some (some "2025-01-01 09:00:00"), last_login := some none,
    updated_at := some (some "2025-01-01T09:00:00") }

/-- The row `jFresh` gets inserted as. -/
def rFresh : User :=
  { id := 5, username := "frank", password_hash := "hash-f",
    nome := "Fra", cognome := "Nk", ruolo := "medico",
    created_at := some "2025-01-01 09:00:00", last_login := none,
    updated_at := some "2025-01-01T09:00:00" }

/-- A record for an id absent from the fixtures (6) that lacks the
required `username` key: its INSERT raises `KeyError`. -/
def jNoName : JUser :=
  { id := some 6, username := none,
    password_hash := some (some "hash-n"), nome := some (some "No"),
    cognome := some (some "Name"), ruolo := some (some "paziente"),
    created_at := some none, last_login := some none,
    updated_at := some (some "2025-01-01T10:00:00") }

/-- An incoming version of `rAlice` with an unparseable timestamp. -/
def jBadTs : JUser :=
  { id := some 1, username := some (some "alice"),
    password_hash := some (some "hash-a3"), nome := some (some "Anna3"),
    cognome := some (some "Ludo3"), ruolo := some (some "admin"),
    created_at := some none, last_login := some none,
    updated_at := some (some "not-a-date") }

/-- An incoming record for the existing id 1 whose `updated_at` is JSON
null. -/
def jNullUpd : JUser :=
  { id := some 1, username := some (some "alice"),
    password_hash := some (some "hash-a4"), nome := some (some "Anna4"),
    cognome := some (some "Ludo4"), ruolo := some (some "admin"),
    created_at := some none, last_login := some none,
    updated_at := some none }

/-- Stored row id 1, username `a` (two-pass idempotence scenario). -/
def rA1 : User :=
  { id := 1, username := "a", password_hash := "h", nome := "n",
    cognome := "c", ruolo := "admin", created_at := none,
    last_login := none, updated_at := some "2025-01-01 10:00:00" }

/-- Stored row id 2, username `b` (two-pass idempotence scenario). -/
def rB2 : User :=
  { id := 2, username := "b", password_hash := "h", nome := "n",
    cognome := "c", ruolo := "admin", created_at := none,
    last_login := none, updated_at := some "2025-01-01 10:00:00" }

/-- Newer incoming version of id 1 that renames it to `b` — blocked on the
first pass while `rB2` still holds that username. -/
def jA1 : JUser :=
  { id := some 1, username := some (some "b"),
    password_hash := some (some "h"), nome := some (some "n"),
    cognome := some (some "c"), ruolo := some (some "admin"),
    created_at := some none, last_login := some none,
    updated_at := some (some "2025-01-01 10:05:00") }

/-- Newer incoming version of id 2 that renames it to `c`, freeing the
username `b`. -/
def jB2 : JUser :=
  { id := some 2, username := some (some "c"),
    password_hash := some (some "h"), nome := some (some "n"),
    cognome := some (some "c"), ruolo := some (some "admin"),
    created_at := some none, last_login := some none,
    updated_at := some (some "2025-01-01 10:05:00") }

/-- Row id 2 after `jB2` merges. -/
def rB2c : User :=
  { rB2 with username := "c", updated_at := some "2025-01-01 10:05:00" }

/-- Row id 1 after `jA1` merges (only possible on the second pass). -/
def rA1b : User :=
  { rA1 with username := "b", updated_at := some "2025-01-01 10:05:00" }

/-- The row of `rAlice` after a login at time `T2`. -/
def rAliceLogin : User := { rAlice with last_login := some "T2" }

/-- The row registered for user `gina` at time `T3` with the test hash. -/
def rReg : User :=
  { id := 9, username := "gina", password_hash := "H-pw", nome := "Gina",
    cognome := "Gi", ruolo := "paziente", created_at := some "T3",
    last_login := none, updated_at := some "T3" }

/-- The row of `rAlice` after an admin edit of `nome` at time `T4`. -/
def rAliceUpd : User := { rAlice with nome := "NewName", updated_at := some "T4" }

/-! ### Helper lemmas -/

/-- Unfolding `bind` on an `ok` value of `Except`. -/
theorem exc_bind_ok {α β : Type} (a : α) (f : α → Except PyExc β) :
    (Except.ok a >>= f) = f a := rfl

/-- Unfolding `bind` on an `error` value of `Except`. -/
theorem exc_bind_err {α β : Type} (e : PyExc) (f : α → Except PyExc β) :
    (Except.error e >>= f) = Except.error e := rfl

/-- Unfolding `pure` of `Except`. -/
theorem exc_pure {α : Type} (a : α) : (pure a : Except PyExc α) = Except.ok a := rfl

/-- Dictionary access on a present key. -/
theorem item_some {α : Type} (v : α) : item (some v) = Except.ok v := rfl

/-- Dictionary access on an absent key. -/
theorem item_none {α : Type} : (item (none : Option α)) = Except.error .keyError := rfl

/-- A string accepted by the timestamp parser is not empty, hence truthy. -/
theorem truthy_of_parse {s : String} {t : TS} (h : parseTS (pyReplaceZ s) = some t) :
    truthy (some s) = true := by
  cases hs : decide (s = "") with
  | false =>
    simp only [truthy, bne_iff_ne, ne_eq, decide_eq_false_iff_not] at hs ⊢
    exact hs
  | true =>
    rw [decide_eq_true_iff] at hs
    subst hs
    rw [show parseTS (pyReplaceZ "") = none by rfl] at h
    cases h

/-- Finding by id in a mapped table, when the map preserves ids. -/
theorem find?_map_of_id {g : User → User} (hg : ∀ r, (g r).id = r.id)
    (l : DB) (n : Int) :
    (l.map g).find? (fun r => r.id == n) = (l.find? (fun r => r.id == n)).map g := by
  induction l with
  | nil => rfl
  | cons r l ih =>
    rw [List.map_cons, List.find?_cons, List.find?_cons, hg r]
    cases hr : (r.id == n) with
    | true => rfl
    | false => exact ih

/-- Finding by id after appending one row. -/
theorem find?_append_one (l : DB) (a : User) (n : Int) :
    (l ++ [a]).find? (fun r => r.id == n)
      = ((l.find? (fun r => r.id == n)).or
          (if a.id == n then some a else none)) := by
  rw [List.find?_append, List.find?_cons]
  cases ha : (a.id == n) with
  | true => rfl
  | false => simp [List.find?]

/-- The row written by the UPDATE statement keeps the row's id. -/
theorem updatedRow_id (user : JUser) (uname pw nm cg rl : String)
    (updAt : Option String) (r : User) :
    (updatedRow user uname pw nm cg rl updAt r).id = r.id := rfl

/-- A synced record resolves to `no_op`: no write, no count, no conflict. -/
theorem processUser_noop_of_synced {db : DB} {u : JUser} (h : Synced db u) :
    processUser db u = .ok (db, .noop) := by
  obtain ⟨n, s, t, row, s2, t2, hid, hupd, hpt, hfind, hrow, hpt2, haw, hlt⟩ := h
  simp only [processUser, hid, item_some, exc_bind_ok, hfind]
  have htb : tryBody db u n row.updated_at = .ok (db, .noop) := by
    simp only [tryBody, hrow, pyGet, hupd, Option.getD_some,
      truthy_of_parse hpt, truthy_of_parse hpt2, Bool.not_true,
      Bool.or_self, Bool.false_eq_true, if_false, hpt, hpt2,
      tsSub, haw, if_true, if_pos hlt, exc_pure]
  rw [htb]
  rfl

/-- Inversion of a successful INSERT: every required field was present and
non-null, the constraints held, and the incoming row was appended. -/
theorem insertUser_ok_inv {db : DB} {u : JUser} {db2 : DB}
    (h : insertUser db u = .ok db2) :
    ∃ uid un pw nm cg rl, u.id = some uid ∧ u.username = some (some un) ∧
      u.password_hash = some (some pw) ∧ u.nome = some (some nm) ∧
      u.cognome = some (some cg) ∧ u.ruolo = some (some rl) ∧
      validRuolo rl = true ∧
      db.any (fun r => r.username == un) = false ∧
      db.any (fun r => r.id == uid) = false ∧
      db2 = db ++ [insertedRow u uid un pw nm cg rl] := by
  unfold insertUser at h
  cases hid : u.id with
  | none => rw [hid, item_none, exc_bind_err] at h; cases h
  | some uid =>
  rw [hid, item_some, exc_bind_ok] at h
  cases hun : u.username with
  | none => rw [hun, item_none, exc_bind_err] at h; cases h
  | some un =>
  rw [hun, item_some, exc_bind_ok] at h
  cases hpw : u.password_hash with
  | none => rw [hpw, item_none, exc_bind_err] at h; cases h
  | some pw =>
  rw [hpw, item_some, exc_bind_ok] at h
  cases hnm : u.nome with
  | none => rw [hnm, item_none, exc_bind_err] at h; cases h
  | some nm =>
  rw [hnm, item_some, exc_bind_ok] at h
  cases hcg : u.cognome with
  | none => rw [hcg, item_none, exc_bind_err] at h; cases h
  | some cg =>
  rw [hcg, item_some, exc_bind_ok] at h
  cases hrl : u.ruolo with
  | none => rw [hrl, item_none, exc_bind_err] at h; cases h
  | some rl =>
  rw [hrl, item_some, exc_bind_ok] at h
  cases un with
  | none => cases h
  | some un =>
  cases pw with
  | none => cases h
  | some pw =>
  cases nm with
  | none => cases h
  | some nm =>
  cases cg with
  | none => cases h
  | some cg =>
  cases rl with
  | none => cases h
  | some rl =>
  replace h : (if (!validRuolo rl) = true then Except.error PyExc.integrityError
    else if (db.any fun r => r.username == un) = true then
      Except.error PyExc.integrityError
    else if (db.any fun r => r.id == uid) = true then
      Except.error PyExc.integrityError
    else Except.ok (db ++ [insertedRow u uid un pw nm cg rl])) = Except.ok db2 := h
  cases hvr : validRuolo rl with
  | false => rw [hvr] at h; cases h
  | true =>
  rw [hvr] at h
  cases hcoll : db.any (fun r => r.username == un) with
  | true => rw [hcoll] at h; cases h
  | false =>
  rw [hcoll] at h
  cases hdup : db.any (fun r => r.id == uid) with
  | true => rw [hdup] at h; cases h
  | false =>
  rw [hdup] at h
  simp only [Bool.not_true, Bool.not_false, if_true, if_false,
    Bool.false_eq_true, Bool.true_eq_false] at h
  refine ⟨uid, un, pw, nm, cg, rl, rfl, rfl, rfl, rfl, rfl, rfl, hvr, hcoll, hdup, ?_⟩
  cases h
  rfl

/-- Inversion of a successful UPDATE: every parameter of the statement was
available, the written row satisfied the constraints, and every row with
the record's id was replaced by the incoming payload. -/
theorem updateUser_ok_inv {db : DB} {u : JUser} {db2 : DB}
    (h : updateUser db u = .ok db2) :
    ∃ un pw nm cg rl updAt uid, u.username = some (some un) ∧
      u.password_hash = some (some pw) ∧ u.nome = some (some nm) ∧
      u.cognome = some (some cg) ∧ u.ruolo = some (some rl) ∧
      u.updated_at = some updAt ∧ u.id = some uid ∧
      validRuolo rl = true ∧
      db.any (fun r => decide (r.id ≠ uid) && r.username == un) = false ∧
      db2 = db.map (fun r =>
        if r.id == uid then updatedRow u un pw nm cg rl updAt r else r) := by
  unfold updateUser at h
  cases hun : u.username with
  | none => rw [hun, item_none, exc_bind_err] at h; cases h
  | some un =>
  rw [hun, item_some, exc_bind_ok] at h
  cases hpw : u.password_hash with
  | none => rw [hpw, item_none, exc_bind_err] at h; cases h
  | some pw =>
  rw [hpw, item_some, exc_bind_ok] at h
  cases hnm : u.nome with
  | none => rw [hnm, item_none, exc_bind_err] at h; cases h
  | some nm =>
  rw [hnm, item_some, exc_bind_ok] at h
  cases hcg : u.cognome with
  | none => rw [hcg, item_none, exc_bind_err] at h; cases h
  | some cg =>
  rw [hcg, item_some, exc_bind_ok] at h
  cases hrl : u.ruolo with
  | none => rw [hrl, item_none, exc_bind_err] at h; cases h
  | some rl =>
  rw [hrl, item_some, exc_bind_ok] at h
  cases hua : u.updated_at with
  | none => rw [hua, item_none, exc_bind_err] at h; cases h
  | some updAt =>
  rw [hua, item_some, exc_bind_ok] at h
  cases hid : u.id with
  | none => rw [hid, item_none, exc_bind_err] at h; cases h
  | some uid =>
  rw [hid, item_some, exc_bind_ok] at h
  cases un with
  | none => cases h
  | some un =>
  cases pw with
  | none => cases h
  | some pw =>
  cases nm with
  | none => cases h
  | some nm =>
  cases cg with
  | none => cases h
  | some cg =>
  cases rl with
  | none => cases h
  | some rl =>
  replace h : (if (!validRuolo rl) = true then Except.error PyExc.integrityError
    else if (db.any fun r => decide (r.id ≠ uid) && r.username == un) = true then
      Except.error PyExc.integrityError
    else Except.ok (db.map (fun r =>
      if (r.id == uid) = true then updatedRow u un pw nm cg rl updAt r else r)))
      = Except.ok db2 := h
  cases hvr : validRuolo rl with
  | false => rw [hvr] at h; cases h
  | true =>
  rw [hvr] at h
  cases hcoll : db.any (fun r => decide (r.id ≠ uid) && r.username == un) with
  | true => rw [hcoll] at h; cases h
  | false =>
  rw [hcoll] at h
  simp only [Bool.not_true, Bool.not_false, if_true, if_false,
    Bool.false_eq_true, Bool.true_eq_false] at h
  refine ⟨un, pw, nm, cg, rl, updAt, uid, rfl, rfl, rfl, rfl, rfl, rfl, rfl, hvr, hcoll, ?_⟩
  cases h
  rfl

/-- A non-None `user.get` means the key was present with a non-null value. -/
theorem pyGet_some_inv {f : Option (Option String)} {s : String}
    (h : pyGet f = some s) : f = some (some s) := by
  cases f with
  | none => cases h
  | some v => cases v with
    | none => cases h
    | some s2 => cases h; rfl

/-- Inversion of the guarded comparison block: a conflict leaves the table
alone; a no-op happens exactly when both timestamps parse with equal
awareness within the tolerance and leaves the table alone; otherwise a
successful UPDATE ran. -/
theorem tryBody_ok_cases {db db2 : DB} {u : JUser} {uid : Int}
    {eu : Option String} {o : Outcome}
    (h : tryBody db u uid eu = .ok (db2, o)) :
    (∃ c, o = .conflictO c ∧ db2 = db) ∨
    (o = .noop ∧ db2 = db ∧ ∃ s s2 t t2,
      pyGet u.updated_at = some s ∧ eu = some s2 ∧
      parseTS (pyReplaceZ s) = some t ∧ parseTS (pyReplaceZ s2) = some t2 ∧
      t.aware = t2.aware ∧ (t.micros - t2.micros).natAbs < 1000000) ∨
    (o = .updatedO ∧ updateUser db u = .ok db2 ∧
      ∃ s s2 t t2, pyGet u.updated_at = some s ∧ eu = some s2 ∧
        parseTS (pyReplaceZ s) = some t ∧ parseTS (pyReplaceZ s2) = some t2 ∧
        t.aware = t2.aware) := by
  rw [show tryBody = fun db user uid existingUpd => (do
    if !truthy (pyGet user.updated_at) || !truthy existingUpd then do
      let uname ← item user.username
      pure (db, Outcome.conflictO { cid := uid, username := uname, reason := "missing_timestamp" })
    else
      match parseTS (pyReplaceZ ((pyGet user.updated_at).getD "")),
            parseTS (pyReplaceZ (existingUpd.getD "")) with
      | some its, some ets =>
        match tsSub its ets with
        | some d =>
          if d.natAbs < 1000000 then pure (db, Outcome.noop)
          else if d > 0 then do
            let db' ← updateUser db user
            pure (db', Outcome.updatedO)
          else do
            let uname ← item user.username
            pure (db, Outcome.conflictO { cid := uid, username := uname,
                                          reason := "local_newer",
                                          local_ts := some (existingUpd.getD ""),
                                          incoming_ts := some ((pyGet user.updated_at).getD "") })
        | none => Except.error PyExc.typeError
      | _, _ => Except.error PyExc.valueError : Except PyExc (DB × Outcome))
    from rfl] at h
  beta_reduce at h
  cases hcond : (!truthy (pyGet u.updated_at) || !truthy eu) with
  | true =>
    rw [hcond, if_pos rfl] at h
    cases hun : u.username with
    | none => rw [hun, item_none, exc_bind_err] at h; cases h
    | some un =>
      rw [hun, item_some, exc_bind_ok, exc_pure] at h
      simp only [Except.ok.injEq, Prod.mk.injEq] at h
      exact .inl ⟨_, h.2.symm, h.1.symm⟩
  | false =>
    rw [hcond] at h
    simp only [Bool.false_eq_true, if_false] at h
    have htru : truthy (pyGet u.updated_at) = true ∧ truthy eu = true := by
      constructor
      · cases hx : truthy (pyGet u.updated_at) with
        | true => rfl
        | false => rw [hx] at hcond; simp at hcond
      · cases hx : truthy eu with
        | true => rfl
        | false => rw [hx] at hcond; simp at hcond
    obtain ⟨ht1, ht2⟩ := htru
    obtain ⟨s, hs⟩ : ∃ s, pyGet u.updated_at = some s := by
      cases hx : pyGet u.updated_at with
      | none => rw [hx] at ht1; cases ht1
      | some s => exact ⟨s, rfl⟩
    obtain ⟨s2, hs2⟩ : ∃ s2, eu = some s2 := by
      cases hx : eu with
      | none => rw [hx] at ht2; cases ht2
      | some s2 => exact ⟨s2, rfl⟩
    rw [hs, hs2] at h
    simp only [Option.getD_some] at h
    cases hp1 : parseTS (pyReplaceZ s) with
    | none => rw [hp1] at h; cases h
    | some its =>
    rw [hp1] at h
    cases hp2 : parseTS (pyReplaceZ s2) with
    | none => rw [hp2] at h; cases h
    | some ets =>
    rw [hp2] at h
    replace h : (match tsSub its ets with
      | some d =>
        if d.natAbs < 1000000 then pure (db, Outcome.noop)
        else if d > 0 then do
          let db' ← updateUser db u
          pure (db', Outcome.updatedO)
        else do
          let uname ← item u.username
          pure (db, Outcome.conflictO { cid := uid, username := uname,
                                        reason := "local_newer", local_ts := some s2,
                                        incoming_ts := some s })
      | none => Except.error PyExc.typeError) = Except.ok (db2, o) := h
    cases hsub : tsSub its ets with
    | none => rw [hsub] at h; cases h
    | some d =>
    rw [hsub] at h
    replace h : (if d.natAbs < 1000000 then pure (db, Outcome.noop)
      else if d > 0 then do
        let db' ← updateUser db u
        pure (db', Outcome.updatedO)
      else do
        let uname ← item u.username
        pure (db, Outcome.conflictO { cid := uid, username := uname,
                                      reason := "local_newer", local_ts := some s2,
                                      incoming_ts := some s })) = Except.ok (db2, o) := h
    have haw : its.aware = ets.aware := by
      by_contra hne
      rw [tsSub, if_neg hne] at hsub
      cases hsub
    have hd : d = its.micros - ets.micros := by
      rw [tsSub, if_pos haw] at hsub
      cases hsub
      rfl
    cases hlt : decide (d.natAbs < 1000000) with
    | true =>
      rw [if_pos (of_decide_eq_true hlt), exc_pure] at h
      simp only [Except.ok.injEq, Prod.mk.injEq] at h
      refine .inr (.inl ⟨h.2.symm, h.1.symm, s, s2, its, ets, hs, hs2, hp1, hp2, haw, ?_⟩)
      rw [← hd]
      exact of_decide_eq_true hlt
    | false =>
      rw [if_neg (of_decide_eq_false hlt)] at h
      cases hgt : decide (d > 0) with
      | true =>
        rw [if_pos (of_decide_eq_true hgt)] at h
        cases hupd : updateUser db u with
        | error e => rw [hupd, exc_bind_err] at h; cases h
        | ok dbU =>
          rw [hupd, exc_bind_ok, exc_pure] at h
          simp only [Except.ok.injEq, Prod.mk.injEq] at h
          refine .inr (.inr ⟨h.2.symm, ?_, s, s2, its, ets, hs, hs2, hp1, hp2, haw⟩)
          exact congrArg Except.ok h.1
      | false =>
        rw [if_neg (of_decide_eq_false hgt)] at h
        cases hun : u.username with
        | none => rw [hun, item_none, exc_bind_err] at h; cases h
        | some un =>
          rw [hun, item_some, exc_bind_ok, exc_pure] at h
          simp only [Except.ok.injEq, Prod.mk.injEq] at h
          exact .inl ⟨_, h.2.symm, h.1.symm⟩

/-- A record that got past the lookup carries an id. -/
theorem processUser_ok_id {db : DB} {u : JUser} {x : DB × Outcome}
    (h : processUser db u = .ok x) : ∃ m, u.id = some m := by
  cases hid : u.id with
  | none =>
    rw [processUser, hid, item_none, exc_bind_err] at h
    cases h
  | some m => exact ⟨m, rfl⟩

/-- Full inversion of one loop iteration: a conflict or a no-op leaves the
table alone (a no-op moreover certifies the tolerance facts), an update
certifies a successful UPDATE on a found row, an insert certifies a
successful INSERT of an absent id. -/
theorem processUser_ok_cases {db db2 : DB} {u : JUser} {o : Outcome} {n : Int}
    (h : processUser db u = .ok (db2, o)) (hid : u.id = some n) :
    (∃ c, o = .conflictO c ∧ db2 = db) ∨
    (o = .noop ∧ db2 = db ∧ ∃ row, db.find? (fun r => r.id == n) = some row ∧
      ∃ s s2 t t2, pyGet u.updated_at = some s ∧ row.updated_at = some s2 ∧
        parseTS (pyReplaceZ s) = some t ∧ parseTS (pyReplaceZ s2) = some t2 ∧
        t.aware = t2.aware ∧ (t.micros - t2.micros).natAbs < 1000000) ∨
    (o = .updatedO ∧ updateUser db u = .ok db2 ∧
      ∃ row, db.find? (fun r => r.id == n) = some row) ∨
    (o = .insertedO ∧ insertUser db u = .ok db2 ∧
      db.find? (fun r => r.id == n) = none) := by
  rw [processUser, hid, item_some, exc_bind_ok] at h
  cases hfind : db.find? (fun r => r.id == n) with
  | some existing =>
    rw [hfind] at h
    replace h : (match tryBody db u n existing.updated_at with
      | .ok r => pure r
      | .error _ => do
        let uname ← item u.username
        pure (db, Outcome.conflictO { cid := n, username := uname,
                                      reason := "timestamp_parse_error" }))
        = Except.ok (db2, o) := h
    cases htb : tryBody db u n existing.updated_at with
    | ok pr =>
      rw [htb] at h
      obtain ⟨dbx, ox⟩ := pr
      replace h : Except.ok ((dbx, ox) : DB × Outcome) = Except.ok (db2, o) := h
      simp only [Except.ok.injEq, Prod.mk.injEq] at h
      obtain ⟨h1, h2⟩ := h
      subst h1
      subst h2
      rcases tryBody_ok_cases htb with ⟨c, rfl, rfl⟩ |
        ⟨rfl, rfl, s, s2, t, t2, hs, hs2, hp1, hp2, haw, hlt⟩ | ⟨rfl, hupd, _⟩
      · exact .inl ⟨c, rfl, rfl⟩
      · exact .inr (.inl ⟨rfl, rfl, existing, rfl, s, s2, t, t2, hs, hs2, hp1, hp2, haw, hlt⟩)
      · exact .inr (.inr (.inl ⟨rfl, hupd, existing, rfl⟩))
    | error e =>
      rw [htb] at h
      cases hun : u.username with
      | none => rw [hun, item_none, exc_bind_err] at h; cases h
      | some un =>
        rw [hun, item_some, exc_bind_ok, exc_pure] at h
        simp only [Except.ok.injEq, Prod.mk.injEq] at h
        exact .inl ⟨_, h.2.symm, h.1.symm⟩
  | none =>
    rw [hfind] at h
    replace h : (do
      let db' ← insertUser db u
      pure (db', Outcome.insertedO) : Except PyExc (DB × Outcome))
        = Except.ok (db2, o) := h
    cases hins : insertUser db u with
    | error e => rw [hins, exc_bind_err] at h; cases h
    | ok dbI =>
      rw [hins, exc_bind_ok, exc_pure] at h
      simp only [Except.ok.injEq, Prod.mk.injEq] at h
      refine .inr (.inr (.inr ⟨h.2.symm, ?_, rfl⟩))
      exact congrArg Except.ok h.1

/-- Processing a record with a different id does not move row `n` of the
table: lookups by `n` are unchanged. -/
theorem processUser_find_frame {db db2 : DB} {u : JUser} {o : Outcome} {m n : Int}
    (h : processUser db u = .ok (db2, o)) (hid : u.id = some m) (hne : m ≠ n) :
    db2.find? (fun r => r.id == n) = db.find? (fun r => r.id == n) := by
  rcases processUser_ok_cases h hid with ⟨c, _, rfl⟩ | ⟨_, rfl, _⟩ |
    ⟨_, hupd, _⟩ | ⟨_, hins, _⟩
  · rfl
  · rfl
  · obtain ⟨un, pw, nm, cg, rl, updAt, uid, _, _, _, _, _, _, hid2, _, _, hdb2⟩ :=
      updateUser_ok_inv hupd
    have huid : m = uid := by
      rw [hid] at hid2
      exact Option.some.inj hid2
    subst huid
    rw [hdb2, find?_map_of_id (fun r => by
      cases hr : (r.id == m) <;> simp [hr, updatedRow_id])]
    cases hf : db.find? (fun r => r.id == n) with
    | none => rfl
    | some r =>
      have hp := List.find?_some hf
      have hrn : r.id = n := by simpa using hp
      have : (r.id == m) = false := by
        simp only [beq_eq_false_iff_ne, ne_eq, hrn]
        exact fun hc => hne hc.symm
      simp [this]
      intro hc
      exact absurd (hrn.symm.trans hc).symm hne
  · obtain ⟨uid, un, pw, nm, cg, rl, hid2, _, _, _, _, _, _, _, _, hdb2⟩ :=
      insertUser_ok_inv hins
    have huid : m = uid := by
      rw [hid] at hid2
      exact Option.some.inj hid2
    subst huid
    rw [hdb2, find?_append_one]
    have : ((insertedRow u m un pw nm cg rl).id == n) = false := by
      simp only [insertedRow, beq_eq_false_iff_ne, ne_eq]
      exact hne
    simp [this]

/-- Unfolding one iteration of the merge loop on a successful record. -/
theorem runBatchAux_cons_ok {db db1 : DB} {o : Outcome} {u : JUser}
    {rest : List JUser} {upd ins : Nat} {acc : List Conflict}
    (hpu : processUser db u = .ok (db1, o)) :
    runBatchAux db upd ins acc (u :: rest) = runBatchStep o db1 upd ins acc rest := by
  rw [show runBatchAux db upd ins acc (u :: rest) = (processUser db u >>= fun x =>
    runBatchStep x.2 x.1 upd ins acc rest) from rfl, hpu, exc_bind_ok]

/-- An exception escaping one iteration aborts the whole loop. -/
theorem runBatchAux_cons_err {db : DB} {e : PyExc} {u : JUser}
    {rest : List JUser} {upd ins : Nat} {acc : List Conflict}
    (hpu : processUser db u = .error e) :
    runBatchAux db upd ins acc (u :: rest) = .error e := by
  rw [show runBatchAux db upd ins acc (u :: rest) = (processUser db u >>= fun x =>
    runBatchStep x.2 x.1 upd ins acc rest) from rfl, hpu, exc_bind_err]

/-- The loop only ever appends to the conflicts accumulator. -/
theorem runBatchAux_conflicts_mono : ∀ (users : List JUser) {db : DB}
    {upd ins : Nat} {acc : List Conflict} {res : BatchResult},
    runBatchAux db upd ins acc users = .ok res →
    ∃ suf, res.conflicts = acc ++ suf := by
  intro users
  induction users with
  | nil =>
    intro db upd ins acc res h
    refine ⟨[], ?_⟩
    cases h
    simp
  | cons u rest ih =>
    intro db upd ins acc res h
    cases hpu : processUser db u with
    | error e => rw [runBatchAux_cons_err hpu] at h; cases h
    | ok pr =>
      obtain ⟨db1, o⟩ := pr
      rw [runBatchAux_cons_ok hpu] at h
      cases o with
      | noop => exact ih h
      | updatedO => exact ih h
      | insertedO => exact ih h
      | conflictO c =>
        obtain ⟨suf, hsuf⟩ := ih h
        refine ⟨c :: suf, ?_⟩
        rw [hsuf, List.append_assoc]
        rfl

/-- A batch whose records all avoid an id leaves lookups of that id
unchanged. -/
theorem runBatchAux_frame : ∀ (users : List JUser) {db : DB}
    {upd ins : Nat} {acc : List Conflict} {res : BatchResult} {n : Int},
    runBatchAux db upd ins acc users = .ok res →
    (∀ v ∈ users, ∀ m, v.id = some m → m ≠ n) →
    res.db.find? (fun r => r.id == n) = db.find? (fun r => r.id == n) := by
  intro users
  induction users with
  | nil =>
    intro db upd ins acc res n h hids
    cases h
    rfl
  | cons u rest ih =>
    intro db upd ins acc res n h hids
    cases hpu : processUser db u with
    | error e => rw [runBatchAux_cons_err hpu] at h; cases h
    | ok pr =>
      obtain ⟨db1, o⟩ := pr
      obtain ⟨m, hm⟩ := processUser_ok_id hpu
      have hframe := processUser_find_frame hpu hm
        (hids u (List.mem_cons_self u rest) m hm)
      have hrest : ∀ v ∈ rest, ∀ m2, v.id = some m2 → m2 ≠ n :=
        fun v hv => hids v (List.mem_cons_of_mem u hv)
      rw [runBatchAux_cons_ok hpu] at h
      cases o with
      | noop => rw [ih h hrest, hframe]
      | updatedO => rw [ih h hrest, hframe]
      | insertedO => rw [ih h hrest, hframe]
      | conflictO c => rw [ih h hrest, hframe]

/-- Being synced only depends on the table through the record's own row. -/
theorem synced_of_find_eq {db db2 : DB} {u : JUser} (hs : Synced db u)
    (hf : ∀ n, u.id = some n →
      db2.find? (fun r => r.id == n) = db.find? (fun r => r.id == n)) :
    Synced db2 u := by
  obtain ⟨n, s, t, row, s2, t2, hid, hupd, hpt, hfind, hrow, hpt2, haw, hlt⟩ := hs
  refine ⟨n, s, t, row, s2, t2, hid, hupd, hpt, ?_, hrow, hpt2, haw, hlt⟩
  rw [hf n hid]
  exact hfind

/-- After a non-conflicting iteration on a record with a parseable
timestamp, the record is synced against the resulting table. -/
theorem processUser_ok_synced {db db1 : DB} {u : JUser} {o : Outcome}
    (h : processUser db u = .ok (db1, o)) (hnc : ∀ c, o ≠ .conflictO c)
    (hg : GoodTs u) : Synced db1 u := by
  obtain ⟨n, s, t, hid, hupd, hpt⟩ := hg
  have hpget : pyGet u.updated_at = some s := by rw [pyGet, hupd]; rfl
  rcases processUser_ok_cases h hid with ⟨c, hc, _⟩ |
    ⟨_, rfl, row, hfind, s1, s2, t1, t2, hs1, hrow, hp1, hp2, haw, hlt⟩ |
    ⟨_, hupd2, row, hfind⟩ | ⟨_, hins, hfind⟩
  · exact absurd hc (hnc c)
  · have hse : s = s1 := by
      rw [hpget] at hs1
      exact Option.some.inj hs1
    subst hse
    have hte : t = t1 := by
      rw [hpt] at hp1
      exact Option.some.inj hp1
    subst hte
    exact ⟨n, s, t, row, s2, t2, hid, hupd, hpt, hfind, hrow, hp2, haw, hlt⟩
  · obtain ⟨un, pw, nm, cg, rl, updAt, uid, _, _, _, _, _, hua, hid2, _, _, hdb1⟩ :=
      updateUser_ok_inv hupd2
    have huid : n = uid := by
      rw [hid] at hid2
      exact Option.some.inj hid2
    subst huid
    have hupdAt : updAt = some s := by
      rw [hupd] at hua
      exact (Option.some.inj hua).symm
    have hrowid : (row.id == n) = true := by
      have hp := List.find?_some hfind
      simpa using hp
    refine ⟨n, s, t, updatedRow u un pw nm cg rl updAt row, s, t, hid, hupd, hpt,
      ?_, hupdAt, hpt, rfl, by simp⟩
    rw [hdb1, find?_map_of_id (fun r => by
      cases hr : (r.id == n) <;> simp [hr, updatedRow_id]), hfind]
    simp [hrowid]
    intro hc
    exact absurd (by simpa using hrowid) hc
  · obtain ⟨uid, un, pw, nm, cg, rl, hid2, _, _, _, _, _, _, _, _, hdb1⟩ :=
      insertUser_ok_inv hins
    have huid : n = uid := by
      rw [hid] at hid2
      exact Option.some.inj hid2
    subst huid
    refine ⟨n, s, t, insertedRow u n un pw nm cg rl, s, t, hid, hupd, hpt, ?_,
      by rw [insertedRow]; exact hpget, hpt, rfl, by simp⟩
    rw [hdb1, find?_append_one, hfind]
    have : ((insertedRow u n un pw nm cg rl).id == n) = true := by
      simp [insertedRow]
    simp [this]

/-- After a successful pass that reported no conflicts, every record of a
batch with pairwise-distinct ids and parseable timestamps is synced
against the resulting table. -/
theorem runBatchAux_all_synced : ∀ (users : List JUser) {db : DB}
    {upd ins : Nat} {acc : List Conflict} {res : BatchResult},
    runBatchAux db upd ins acc users = .ok res →
    res.conflicts = acc →
    (∀ u ∈ users, GoodTs u) →
    List.Pairwise (fun a b => a.id ≠ b.id) users →
    ∀ u ∈ users, Synced res.db u := by
  intro users
  induction users with
  | nil =>
    intro db upd ins acc res h hc hg hp v hv
    cases hv
  | cons u rest ih =>
    intro db upd ins acc res h hc hg hp v hv
    cases hpu : processUser db u with
    | error e => rw [runBatchAux_cons_err hpu] at h; cases h
    | ok pr =>
      obtain ⟨db1, o⟩ := pr
      rw [runBatchAux_cons_ok hpu] at h
      have hrest_good : ∀ w ∈ rest, GoodTs w :=
        fun w hw => hg w (List.mem_cons_of_mem u hw)
      have hrest_pair : List.Pairwise (fun a b => a.id ≠ b.id) rest :=
        (List.pairwise_cons.mp hp).2
      have hhead : ∀ w ∈ rest, u.id ≠ w.id := (List.pairwise_cons.mp hp).1
      have hmain : ∀ (h2 : runBatchAux db1 upd ins acc rest = .ok res ∨
          runBatchAux db1 (upd + 1) ins acc rest = .ok res ∨
          runBatchAux db1 upd (ins + 1) acc rest = .ok res),
          (∀ c, o ≠ .conflictO c) → Synced res.db v := by
        intro h2 hnc
        rcases List.mem_cons.mp hv with rfl | hv2
        · have hs1 : Synced db1 v := processUser_ok_synced hpu hnc (hg v (List.mem_cons_self v rest))
          refine synced_of_find_eq hs1 ?_
          intro n hn
          have hids : ∀ w ∈ rest, ∀ m, w.id = some m → m ≠ n := by
            intro w hw m hm hmn
            exact hhead w hw (by rw [hn, hm, hmn])
          rcases h2 with h2 | h2 | h2
          · exact runBatchAux_frame rest h2 hids
          · exact runBatchAux_frame rest h2 hids
          · exact runBatchAux_frame rest h2 hids
        · rcases h2 with h2 | h2 | h2
          · exact ih h2 hc hrest_good hrest_pair v hv2
          · exact ih h2 hc hrest_good hrest_pair v hv2
          · exact ih h2 hc hrest_good hrest_pair v hv2
      cases o with
      | noop => exact hmain (.inl h) (fun c hcon => Outcome.noConfusion hcon)
      | updatedO => exact hmain (.inr (.inl h)) (fun c hcon => Outcome.noConfusion hcon)
      | insertedO => exact hmain (.inr (.inr h)) (fun c hcon => Outcome.noConfusion hcon)
      | conflictO c =>
        obtain ⟨suf, hsuf⟩ := runBatchAux_conflicts_mono rest h
        rw [hc] at hsuf
        have hlen := congrArg List.length hsuf
        simp [List.length_append] at hlen

/-- On a table against which every record is synced, the loop no-ops every
record: no write, no count, no conflict. -/
theorem runBatchAux_all_noop : ∀ (users : List JUser) (db : DB)
    (upd ins : Nat) (acc : List Conflict),
    (∀ u ∈ users, Synced db u) →
    runBatchAux db upd ins acc users = .ok ⟨db, upd, ins, acc⟩ := by
  intro users
  induction users with
  | nil => intro db upd ins acc hs; rfl
  | cons u rest ih =>
    intro db upd ins acc hs
    rw [runBatchAux_cons_ok (processUser_noop_of_synced (hs u (List.mem_cons_self u rest)))]
    exact ih db upd ins acc (fun w hw => hs w (List.mem_cons_of_mem u hw))

/-- Unfolding the POST endpoint past a valid token and a present body. -/
theorem receive_unfold (tok : String) (users : List JUser) (db : DB) (now : String) :
    receive_users_for_sync tok (some tok) (some users) db now =
      (if users = [] then (PostResp.http400, db) else
        match runBatch db users with
        | .ok r => (.okResp r.updated r.inserted r.conflicts now, r.db)
        | .error _ => (.http500, db)) := by
  have hv : verify_sync_token tok (some tok) = true := by
    simp [verify_sync_token]
  rw [receive_users_for_sync, hv]
  rfl

/-- The GET endpoint on a valid token returns the whole table. -/
theorem get_unfold (tok : String) (db : DB) (now : String) :
    get_users_for_sync tok (some tok) db now = .okResp db db.length now := by
  have hv : verify_sync_token tok (some tok) = true := by
    simp [verify_sync_token]
  rw [get_users_for_sync, hv]
  rfl

/-- Forward computation of a successful UPDATE. -/
theorem updateUser_eq_ok {db : DB} {u : JUser} {n : Int}
    {un pw nm cg rl : String} {updAt : Option String}
    (hun : u.username = some (some un)) (hpw : u.password_hash = some (some pw))
    (hnm : u.nome = some (some nm)) (hcg : u.cognome = some (some cg))
    (hrl : u.ruolo = some (some rl)) (hua : u.updated_at = some updAt)
    (hid : u.id = some n) (hvr : validRuolo rl = true)
    (hcoll : db.any (fun r => decide (r.id ≠ n) && r.username == un) = false) :
    updateUser db u = .ok (db.map (fun r =>
      if r.id == n then updatedRow u un pw nm cg rl updAt r else r)) := by
  simp only [updateUser, hun, hpw, hnm, hcg, hrl, hua, hid, item_some, exc_bind_ok,
    hvr, Bool.not_true, Bool.false_eq_true, if_false, hcoll]

/-- Forward computation of a successful INSERT. -/
theorem insertUser_eq_ok {db : DB} {u : JUser} {n : Int} {un pw nm cg rl : String}
    (hid : u.id = some n) (hun : u.username = some (some un))
    (hpw : u.password_hash = some (some pw)) (hnm : u.nome = some (some nm))
    (hcg : u.cognome = some (some cg)) (hrl : u.ruolo = some (some rl))
    (hvr : validRuolo rl = true)
    (hucoll : db.any (fun r => r.username == un) = false)
    (hidcoll : db.any (fun r => r.id == n) = false) :
    insertUser db u = .ok (db ++ [insertedRow u n un pw nm cg rl]) := by
  simp only [insertUser, hid, hun, hpw, hnm, hcg, hrl, item_some, exc_bind_ok,
    hvr, Bool.not_true, Bool.false_eq_true, if_false, hucoll, hidcoll]

/-- When no row carries an id, the primary-key check on that id passes. -/
theorem any_id_false_of_find?_none {db : DB} {n : Int}
    (h : db.find? (fun r => r.id == n) = none) :
    db.any (fun r => r.id == n) = false := by
  induction db with
  | nil => rfl
  | cons r l ih =>
    rw [List.find?_cons] at h
    cases hr : (r.id == n) with
    | true => rw [hr] at h; cases h
    | false =>
      rw [hr] at h
      simp only [List.any_cons, hr, Bool.false_or]
      exact ih h

/-! ### Claim theorems -/

/-- C5 (amended): whenever a record of a POST `/api/users/sync` batch
resolves to `update`, the merge overwrites the stored row's `created_at`
with the incoming record's `created_at` value, verbatim (full-record
replace); the stored `created_at` is preserved only when the incoming
record carries the same value. -/
theorem C5_created_at_update {db db2 : DB} {u : JUser} {n : Int}
    (h : processUser db u = .ok (db2, .updatedO)) (hid : u.id = some n) :
    ∀ r2 ∈ db2, r2.id = n → r2.created_at = pyGet u.created_at := by
  rcases processUser_ok_cases h hid with ⟨c, hc, _⟩ | ⟨hc, _, _⟩ |
    ⟨_, hupd, _⟩ | ⟨hc, _, _⟩
  · cases hc
  · cases hc
  · obtain ⟨un, pw, nm, cg, rl, updAt, uid, _, _, _, _, _, _, hid2, _, _, hdb2⟩ :=
      updateUser_ok_inv hupd
    have huid : n = uid := by
      rw [hid] at hid2
      exact Option.some.inj hid2
    subst huid
    intro r2 hr2 hr2n
    rw [hdb2] at hr2
    obtain ⟨r, hr, rfl⟩ := List.mem_map.mp hr2
    cases hcase : (r.id == n) with
    | true => simp [hcase, updatedRow]
    | false =>
      rw [hcase] at hr2n
      simp only [Bool.false_eq_true, if_false] at hr2n
      exact absurd hr2n (beq_eq_false_iff_ne.mp hcase)
  · cases hc

/-- C6: when an incoming record wins the merge, the stored row afterwards
carries `updated_at` equal to the incoming value verbatim — never the
time of the merge; in particular, for the spec's scenario (local id 1 at
`2025-01-01T10:00:00`, incoming at `2025-01-01T10:05:00`) the response is
`updated = 1, inserted = 0, conflicts = []` for every current time `now`,
and the stored row carries the incoming timestamp. -/
theorem C6_updated_at_verbatim :
    (∀ (db db2 : DB) (u : JUser) (n : Int) (s : Option String),
      processUser db u = .ok (db2, .updatedO) → u.id = some n →
      u.updated_at = some s → ∀ r2 ∈ db2, r2.id = n → r2.updated_at = s) ∧
    (∀ now, receive_users_for_sync "test123" (some "test123")
        (some [jMerge]) [rAlice] now = (.okResp 1 0 [] now, [rMerged]) ∧
      rAlice.updated_at = some "2025-01-01T10:00:00" ∧
      rMerged.updated_at = some "2025-01-01T10:05:00" ∧
      jMerge.updated_at = some (some "2025-01-01T10:05:00")) := by
  constructor
  · intro db db2 u n s h hid hupd r2 hr2 hr2n
    rcases processUser_ok_cases h hid with ⟨c, hc, _⟩ | ⟨hc, _, _⟩ |
      ⟨_, hupd2, _⟩ | ⟨hc, _, _⟩
    · cases hc
    · cases hc
    · obtain ⟨un, pw, nm, cg, rl, updAt, uid, _, _, _, _, _, hua, hid2, _, _, hdb2⟩ :=
        updateUser_ok_inv hupd2
      have huid : n = uid := by
        rw [hid] at hid2
        exact Option.some.inj hid2
      subst huid
      have hs : updAt = s := by
        rw [hupd] at hua
        exact (Option.some.inj hua).symm
      subst hs
      rw [hdb2] at hr2
      obtain ⟨r, hr, rfl⟩ := List.mem_map.mp hr2
      cases hcase : (r.id == n) with
      | true => simp [hcase, updatedRow]
      | false =>
        rw [hcase] at hr2n
        simp only [Bool.false_eq_true, if_false] at hr2n
        exact absurd hr2n (beq_eq_false_iff_ne.mp hcase)
    · cases hc
  · intro now
    refine ⟨?_, rfl, rfl, rfl⟩
    rw [receive_unfold]
    rfl

/-- C8: any request to the sync endpoints whose `X-Sync-Token` header is
missing or different from the configured token is answered 401, with the
table neither read (the response does not depend on it) nor written. -/
theorem C8_auth_gate {tok : String} {reqToken : Option String}
    (h : reqToken ≠ some tok) :
    ∀ (db db2 : DB) (body : Option (List JUser)) (now : String),
      get_users_for_sync tok reqToken db now = .http401 ∧
      get_users_for_sync tok reqToken db now = get_users_for_sync tok reqToken db2 now ∧
      receive_users_for_sync tok reqToken body db now = (.http401, db) := by
  have hv : verify_sync_token tok reqToken = false := by
    simp only [verify_sync_token, beq_eq_false_iff_ne, ne_eq]
    exact h
  intro db db2 body now
  refine ⟨?_, ?_, ?_⟩
  · rw [get_users_for_sync, hv]
    rfl
  · rw [get_users_for_sync, hv, get_users_for_sync, hv]
    rfl
  · rw [receive_users_for_sync.eq_def, hv]
    rfl

/-- C10: if processing any record of the batch raises an exception that
escapes the per-record handling, the endpoint returns 500 with the user
table exactly as it was before the request — `conn.commit()` runs only
once, after the loop, so the uncommitted inserts and updates of earlier
records in the same batch are rolled back when the connection is
discarded. -/
theorem C10_batch_rollback {db : DB} {users : List JUser} {e : PyExc}
    (tok now : String) (h : runBatch db users = .error e) :
    receive_users_for_sync tok (some tok) (some users) db now = (.http500, db) := by
  have hne : users ≠ [] := by
    intro he
    subst he
    cases h
  rw [receive_unfold, if_neg hne, h]

/-- C2 (amended): for a batch whose records carry pairwise-distinct ids
and parseable `updated_at` timestamps, if the first POST succeeds with an
empty conflicts list, then POSTing the same batch again leaves the user
table exactly as after the first call and resolves every record to
`no_op`: the second response has `updated = 0`, `inserted = 0` and an
empty conflicts list.  (Without these conditions the second call can
repeat conflicts, and can even perform writes the first call could not.) -/
theorem C2_idempotent_merge (tok : String) (users : List JUser)
    (db db1 : DB) (upd ins : Nat) (now now2 : String)
    (hgood : ∀ u ∈ users, GoodTs u)
    (hids : List.Pairwise (fun a b => a.id ≠ b.id) users)
    (h1 : receive_users_for_sync tok (some tok) (some users) db now
          = (.okResp upd ins [] now, db1)) :
    receive_users_for_sync tok (some tok) (some users) db1 now2
      = (.okResp 0 0 [] now2, db1) := by
  rw [receive_unfold] at h1
  by_cases hemp : users = []
  · rw [if_pos hemp] at h1
    simp at h1
  · rw [if_neg hemp] at h1
    cases hrb : runBatch db users with
    | error e =>
      rw [hrb] at h1
      simp at h1
    | ok r =>
      rw [hrb] at h1
      rw [Prod.mk.injEq] at h1
      obtain ⟨hresp, hdb⟩ := h1
      rw [PostResp.okResp.injEq] at hresp
      obtain ⟨-, -, hconfl, -⟩ := hresp
      have hsync : ∀ u ∈ users, Synced db1 u := by
        rw [← hdb]
        exact runBatchAux_all_synced users hrb hconfl hgood hids
      rw [receive_unfold, if_neg hemp,
        show runBatch db1 users = .ok ⟨db1, 0, 0, []⟩ from
          runBatchAux_all_noop users db1 0 0 [] hsync]

/-- C1 (amended): for a record whose id exists locally and whose local and
incoming `updated_at` both parse (same awareness), provided the incoming
payload is well-formed and its username does not belong to a different
local row: a difference under 1 second is a silent no-op; an incoming
timestamp strictly newer replaces the whole local row and is counted in
`updated`; otherwise nothing is written and the record is reported with
reason `local_newer`.  (When the overwrite would violate a table
constraint — e.g. the incoming username belongs to another row — the code
instead reports the record as a `timestamp_parse_error` conflict, which is
why the well-formedness hypotheses are required.) -/
theorem C1_lww_trichotomy {db : DB} {u : JUser} {n : Int} {row : User}
    {s sLoc un pw nm cg rl : String} {t tLoc : TS}
    (hid : u.id = some n)
    (hfind : db.find? (fun r => r.id == n) = some row)
    (hupd : u.updated_at = some (some s))
    (hrow : row.updated_at = some sLoc)
    (hpt : parseTS (pyReplaceZ s) = some t)
    (hptL : parseTS (pyReplaceZ sLoc) = some tLoc)
    (haw : t.aware = tLoc.aware)
    (hun : u.username = some (some un))
    (hpw : u.password_hash = some (some pw))
    (hnm : u.nome = some (some nm))
    (hcg : u.cognome = some (some cg))
    (hrl : u.ruolo = some (some rl))
    (hvr : validRuolo rl = true)
    (hcoll : db.any (fun r => decide (r.id ≠ n) && r.username == un) = false) :
    ((t.micros - tLoc.micros).natAbs < 1000000 →
      processUser db u = .ok (db, .noop)) ∧
    (¬ (t.micros - tLoc.micros).natAbs < 1000000 → 0 < t.micros - tLoc.micros →
      processUser db u = .ok (db.map (fun r =>
        if r.id == n then updatedRow u un pw nm cg rl (some s) r else r), .updatedO)) ∧
    (¬ (t.micros - tLoc.micros).natAbs < 1000000 → ¬ 0 < t.micros - tLoc.micros →
      processUser db u = .ok (db, .conflictO
        { cid := n, username := some un, reason := "local_newer",
          local_ts := some sLoc, incoming_ts := some s })) := by
  refine ⟨?_, ?_, ?_⟩
  · intro hlt
    exact processUser_noop_of_synced
      ⟨n, s, t, row, sLoc, tLoc, hid, hupd, hpt, hfind, hrow, hptL, haw, hlt⟩
  · intro hnlt hgt
    simp only [processUser, hid, item_some, exc_bind_ok, hfind]
    have htb : tryBody db u n row.updated_at = .ok (db.map (fun r =>
        if r.id == n then updatedRow u un pw nm cg rl (some s) r else r), .updatedO) := by
      simp only [tryBody, hrow, pyGet, hupd, Option.getD_some,
        truthy_of_parse hpt, truthy_of_parse hptL, Bool.not_true,
        Bool.or_self, Bool.false_eq_true, if_false, hpt, hptL,
        tsSub, haw, if_true, if_neg hnlt, if_pos hgt,
        updateUser_eq_ok hun hpw hnm hcg hrl hupd hid hvr hcoll,
        exc_bind_ok, exc_pure]
    rw [htb]
    rfl
  · intro hnlt hngt
    simp only [processUser, hid, item_some, exc_bind_ok, hfind]
    have htb : tryBody db u n row.updated_at = .ok (db, .conflictO
        { cid := n, username := some un, reason := "local_newer",
          local_ts := some sLoc, incoming_ts := some s }) := by
      simp only [tryBody, hrow, pyGet, hupd, Option.getD_some,
        truthy_of_parse hpt, truthy_of_parse hptL, Bool.not_true,
        Bool.or_self, Bool.false_eq_true, if_false, hpt, hptL,
        tsSub, haw, if_true, if_neg hnlt, if_neg hngt,
        hun, item_some, exc_bind_ok, exc_pure]
    rw [htb]
    rfl

/-- C3 (amended): an incoming record whose `updated_at` is null or missing
is quarantined as a `missing_timestamp` conflict — neither inserted nor
updated — when its id already exists locally; but when its id is absent
locally the record is inserted anyway, carrying its null timestamp into
the store. -/
theorem C3_null_timestamp :
    (∀ (db : DB) (u : JUser) (n : Int) (row : User) (un : Option String),
      u.id = some n → db.find? (fun r => r.id == n) = some row →
      u.username = some un → truthy (pyGet u.updated_at) = false →
      processUser db u = .ok (db, .conflictO
        { cid := n, username := un, reason := "missing_timestamp" })) ∧
    (∀ (db : DB) (u : JUser) (n : Int) (un pw nm cg rl : String),
      u.id = some n → db.find? (fun r => r.id == n) = none →
      u.username = some (some un) → u.password_hash = some (some pw) →
      u.nome = some (some nm) → u.cognome = some (some cg) →
      u.ruolo = some (some rl) → validRuolo rl = true →
      db.any (fun r => r.username == un) = false →
      pyGet u.updated_at = none →
      processUser db u = .ok (db ++ [insertedRow u n un pw nm cg rl], .insertedO) ∧
      (insertedRow u n un pw nm cg rl).updated_at = none) := by
  constructor
  · intro db u n row un hid hfind hun hnull
    simp only [processUser, hid, item_some, exc_bind_ok, hfind]
    have htb : tryBody db u n row.updated_at = .ok (db, .conflictO
        { cid := n, username := un, reason := "missing_timestamp" }) := by
      simp only [tryBody, hnull, Bool.not_false, Bool.true_or, if_true,
        hun, item_some, exc_bind_ok, exc_pure]
    rw [htb]
    rfl
  · intro db u n un pw nm cg rl hid hfind hun hpw hnm hcg hrl hvr hucoll hnull
    refine ⟨?_, hnull⟩
    simp only [processUser, hid, item_some, exc_bind_ok, hfind,
      insertUser_eq_ok hid hun hpw hnm hcg hrl hvr hucoll
        (any_id_false_of_find?_none hfind), exc_pure]

/-- C4 (amended): an incoming record whose id is absent locally is
inserted regardless of its `updated_at` value and counted in `inserted` —
provided the INSERT satisfies the table constraints (required fields
present and non-null, valid role, username not already taken by a local
row); a constraint violation instead raises, aborting the whole request
with a 500 and no merge at all. -/
theorem C4_insert_new {db : DB} {u : JUser} {n : Int} {un pw nm cg rl : String}
    (hid : u.id = some n)
    (hfind : db.find? (fun r => r.id == n) = none)
    (hun : u.username = some (some un))
    (hpw : u.password_hash = some (some pw))
    (hnm : u.nome = some (some nm))
    (hcg : u.cognome = some (some cg))
    (hrl : u.ruolo = some (some rl))
    (hvr : validRuolo rl = true)
    (hucoll : db.any (fun r => r.username == un) = false) :
    processUser db u = .ok (db ++ [insertedRow u n un pw nm cg rl], .insertedO) ∧
    ∀ (upd ins : Nat) (acc : List Conflict) (rest : List JUser),
      runBatchAux db upd ins acc (u :: rest)
        = runBatchAux (db ++ [insertedRow u n un pw nm cg rl]) upd (ins + 1) acc rest := by
  have hmain : processUser db u
      = .ok (db ++ [insertedRow u n un pw nm cg rl], .insertedO) := by
    simp only [processUser, hid, item_some, exc_bind_ok, hfind,
      insertUser_eq_ok hid hun hpw hnm hcg hrl hvr hucoll
        (any_id_false_of_find?_none hfind), exc_pure]
  refine ⟨hmain, ?_⟩
  intro upd ins acc rest
  rw [runBatchAux_cons_ok hmain]
  rfl

/-- C7 (amended): a record whose id exists locally but whose timestamp
does not parse is classified per-record as a `timestamp_parse_error`
conflict and skipped, and the loop carries on with the remaining records
of the batch.  (A record missing a required field is different: on the
insert path, or when `id`/`username` itself is missing, the exception
escapes the per-record handling and the whole batch is aborted with a
500 — no record of the batch is merged.) -/
theorem C7_parse_error_per_record {db : DB} {u : JUser} {n : Int} {row : User}
    {un : Option String} {s s2 : String}
    (hid : u.id = some n)
    (hfind : db.find? (fun r => r.id == n) = some row)
    (hun : u.username = some un)
    (hupd : u.updated_at = some (some s))
    (hs : truthy (some s) = true)
    (hrow : row.updated_at = some s2)
    (hs2 : truthy (some s2) = true)
    (hparse : parseTS (pyReplaceZ s) = none) :
    processUser db u = .ok (db, .conflictO
      { cid := n, username := un, reason := "timestamp_parse_error" }) ∧
    ∀ (upd ins : Nat) (acc : List Conflict) (rest : List JUser),
      runBatchAux db upd ins acc (u :: rest)
        = runBatchAux db upd ins
            (acc ++ [{ cid := n, username := un,
                       reason := "timestamp_parse_error" }]) rest := by
  have hmain : processUser db u = .ok (db, .conflictO
      { cid := n, username := un, reason := "timestamp_parse_error" }) := by
    simp only [processUser, hid, item_some, exc_bind_ok, hfind]
    have htb : tryBody db u n row.updated_at = .error .valueError := by
      cases hp2 : parseTS (pyReplaceZ s2) with
      | none =>
        simp only [tryBody, hrow, pyGet, hupd, Option.getD_some, hs, hs2,
          Bool.not_true, Bool.or_self, Bool.false_eq_true, if_false, hparse, hp2]
      | some ets =>
        simp only [tryBody, hrow, pyGet, hupd, Option.getD_some, hs, hs2,
          Bool.not_true, Bool.or_self, Bool.false_eq_true, if_false, hparse, hp2]
    rw [htb, hun, item_some]
    rfl
  refine ⟨hmain, ?_⟩
  intro upd ins acc rest
  rw [runBatchAux_cons_ok hmain]
  rfl

/-- Mapping a row transformation that keeps `updated_at` leaves the
table's `updated_at` column unchanged. -/
theorem map_updated_at_eq {g : User → User}
    (hg : ∀ r, (g r).updated_at = r.updated_at) :
    ∀ l : DB, (l.map g).map (fun r => r.updated_at) = l.map (fun r => r.updated_at) := by
  intro l
  induction l with
  | nil => rfl
  | cons r l ih => simp [hg, ih]

/-- C9: a successful login touches only the target row's `last_login`
(besides appending a session row) and leaves every row's `updated_at`
unchanged; registration inserts the new row with `updated_at` set to the
current time; an admin edit through `update_user` rewrites the chosen
fields and always stamps `updated_at` with the current time. -/
theorem C9_updated_at_policy :
    (∀ (db : DB) (sessions : List Session) (username password : String)
        (verify : String → String → Bool) (sessionToken expiresAt now : String)
        (user : User),
      db.find? (fun r => r.username == username) = some user →
      verify password user.password_hash = true →
      login db sessions username password verify sessionToken expiresAt now
        = (true,
           db.map (fun r =>
             if r.id == user.id then { r with last_login := some now } else r),
           sessions ++ [{ user_id := user.id, session_token := sessionToken,
                          expires_at := expiresAt }]) ∧
      (db.map (fun r =>
          if r.id == user.id then { r with last_login := some now } else r)).map
            (fun r => r.updated_at)
        = db.map (fun r => r.updated_at)) ∧
    (∀ (db : DB) (username password nm cg rl : String) (hash : String → String)
        (newId : Int) (now : String),
      validRuolo rl = true →
      (db.find? (fun r => r.username == username)).isSome = false →
      register_user db username password nm cg rl hash newId now
        = (true, db ++ [{ id := newId, username := username,
                          password_hash := hash password, nome := nm,
                          cognome := cg, ruolo := rl, created_at := some now,
                          last_login := none, updated_at := some now }])) ∧
    (∀ (db : DB) (user_id : Int) (nm cg rl npw : Option String)
        (hash : String → String) (now : String),
      (truthy rl = true → validRuolo (rl.getD "") = true) →
      (truthy nm || truthy cg || truthy rl || truthy npw) = true →
      db.any (fun r => r.id == user_id) = true →
      update_user db user_id nm cg rl npw hash now
        = (true, db.map (fun r =>
            if r.id == user_id then updateUserRow nm cg rl npw hash now r else r)) ∧
      ∀ r, (updateUserRow nm cg rl npw hash now r).updated_at = some now) := by
  refine ⟨?_, ?_, ?_⟩
  · intro db sessions username password verify sessionToken expiresAt now user hfind hv
    constructor
    · simp only [login, hfind, hv, Bool.not_true, Bool.false_eq_true, if_false]
    · exact map_updated_at_eq (fun r => by
        cases hr : (r.id == user.id) <;> simp [hr]) db
  · intro db username password nm cg rl hash newId now hvr hnone
    simp only [register_user, hvr, Bool.not_true, Bool.false_eq_true, if_false, hnone]
  · intro db user_id nm cg rl npw hash now hvr hone hany
    refine ⟨?_, fun r => rfl⟩
    have hc1 : (truthy rl && !validRuolo (rl.getD "")) = false := by
      cases htr : truthy rl with
      | false => simp
      | true => simp [hvr htr]
    have hc2 : (!truthy nm && !truthy cg && !truthy rl && !truthy npw) = false := by
      cases h1 : truthy nm <;> cases h2 : truthy cg <;> cases h3 : truthy rl <;>
        cases h4 : truthy npw <;> simp_all
    simp only [update_user, hc1, hc2, hany, Bool.false_eq_true, if_false, if_true]

/-! ### Counterexamples -/

/-- Counterexample to C1 as stated: `jSteal` targets the existing id 1,
both timestamps parse, and the incoming one is strictly newer by 300
seconds — yet the local row is NOT overwritten and nothing is counted in
`updated`: the UPDATE violates UNIQUE(username) (id 2 already holds
`bob`), the exception is caught by the per-record handler, and the record
is reported as a `timestamp_parse_error` conflict with the table
unchanged. -/
theorem C1_counterexample :
    List.find? (fun r => r.id == 1) [rAlice, rBob] = some rAlice ∧
    parseTS (pyReplaceZ "2025-01-01T10:05:00") = some ⟨1735725900000000, false⟩ ∧
    parseTS (pyReplaceZ "2025-01-01T10:00:00") = some ⟨1735725600000000, false⟩ ∧
    jSteal.id = some 1 ∧
    jSteal.updated_at = some (some "2025-01-01T10:05:00") ∧
    rAlice.updated_at = some "2025-01-01T10:00:00" ∧
    receive_users_for_sync "test123" (some "test123") (some [jSteal])
        [rAlice, rBob] "NOW"
      = (.okResp 0 0
          [{ cid := 1, username := some "bob", reason := "timestamp_parse_error" }]
          "NOW", [rAlice, rBob]) := by
  refine ⟨by decide, by decide, by decide, rfl, rfl, rfl, by decide⟩

/-- Counterexample to C2 as stated: (1) a batch that the resolver reports
as `local_newer` leaves the table unchanged, so the second identical POST
returns the very same non-empty conflicts list — the conflicts do not
become `no_op`; (2) the table state is not even idempotent: renaming id 1
to `b` is blocked on the first pass by UNIQUE(username) while id 2 still
holds `b`, but the same pass renames id 2 to `c`, so the second identical
POST performs a write (`updated = 1`) and the table changes again. -/
theorem C2_counterexample :
    (receive_users_for_sync "test123" (some "test123") (some [jOlder]) [rAlice] "N1"
       = (.okResp 0 0 [{ cid := 1, username := some "alice", reason := "local_newer",
                         local_ts := some "2025-01-01T10:00:00",
                         incoming_ts := some "2025-01-01T09:59:50" }] "N1", [rAlice]) ∧
     receive_users_for_sync "test123" (some "test123") (some [jOlder]) [rAlice] "N2"
       = (.okResp 0 0 [{ cid := 1, username := some "alice", reason := "local_newer",
                         local_ts := some "2025-01-01T10:00:00",
                         incoming_ts := some "2025-01-01T09:59:50" }] "N2", [rAlice]) ∧
     ([{ cid := 1, username := some "alice", reason := "local_newer",
         local_ts := some "2025-01-01T10:00:00",
         incoming_ts := some "2025-01-01T09:59:50" }] : List Conflict) ≠ []) ∧
    (receive_users_for_sync "test123" (some "test123") (some [jA1, jB2]) [rA1, rB2] "N1"
       = (.okResp 1 0
           [{ cid := 1, username := some "b", reason := "timestamp_parse_error" }]
           "N1", [rA1, rB2c]) ∧
     receive_users_for_sync "test123" (some "test123") (some [jA1, jB2]) [rA1, rB2c] "N2"
       = (.okResp 1 0 [] "N2", [rA1b, rB2c]) ∧
     ([rA1b, rB2c] : DB) ≠ [rA1, rB2c]) := by
  exact ⟨⟨by decide, by decide, by decide⟩, ⟨by decide, by decide, by decide⟩⟩

/-- Counterexample to C3 as stated: `jNullTs` carries a null `updated_at`,
yet because its id (7) is absent locally it IS merged — inserted into the
table with its null timestamp, counted in `inserted`, and no conflict is
reported. -/
theorem C3_counterexample :
    jNullTs.updated_at = some none ∧
    receive_users_for_sync "test123" (some "test123") (some [jNullTs]) [] "NOW"
      = (.okResp 0 1 [] "NOW", [rNullTs]) ∧
    rNullTs.updated_at = none := by
  exact ⟨rfl, by decide, rfl⟩

/-- Counterexample to C4 as stated: `jCollide`'s id (3) is absent locally,
yet the handler does not insert it — its INSERT violates
UNIQUE(username) (`alice` is taken by id 1), the exception escapes the
per-record handling, and the whole request fails with 500, the table
unchanged. -/
theorem C4_counterexample :
    List.find? (fun r => r.id == 3) [rAlice, rBob] = none ∧
    jCollide.id = some 3 ∧
    receive_users_for_sync "test123" (some "test123") (some [jCollide])
        [rAlice, rBob] "NOW"
      = (.http500, [rAlice, rBob]) := by
  exact ⟨by decide, rfl, by decide⟩

/-- Counterexample to C5 as stated: `jMerge` wins the merge against
`rAlice` (the `update` branch), and the stored row's `created_at` after
the merge is the incoming value, different from what it was before. -/
theorem C5_counterexample :
    receive_users_for_sync "test123" (some "test123") (some [jMerge]) [rAlice] "NOW"
      = (.okResp 1 0 [] "NOW", [rMerged]) ∧
    rAlice.created_at = some "2024-01-01 00:00:00" ∧
    rMerged.created_at = some "2024-06-01 00:00:00" ∧
    rMerged.created_at ≠ rAlice.created_at := by
  exact ⟨by decide, rfl, rfl, by decide⟩

/-- Counterexample to C7 as stated: `jNoName` lacks the required
`username` field and its id (6) is absent locally, so its INSERT raises
`KeyError` outside the per-record try/except: the record is not
classified as a conflict — the whole batch aborts with 500, and even its
well-formed sibling `jFresh` (which merges fine on its own) is rolled
back and not merged. -/
theorem C7_counterexample :
    jNoName.username = none ∧
    runBatch [rAlice] [jFresh] = .ok ⟨[rAlice, rFresh], 0, 1, []⟩ ∧
    receive_users_for_sync "test123" (some "test123") (some [jFresh, jNoName])
        [rAlice] "NOW"
      = (.http500, [rAlice]) := by
  exact ⟨rfl, by rfl, by decide⟩

/-! ### Witnesses -/

/-- Witness for C1: on the fixtures, the incoming record is 300 seconds
newer, and the trichotomy's update arm fires. -/
theorem C1_witness : processUser [rAlice] jMerge = .ok ([rMerged], .updatedO) :=
  (@C1_lww_trichotomy [rAlice] jMerge 1 rAlice "2025-01-01T10:05:00"
      "2025-01-01T10:00:00" "alice" "hash-a2" "Anna2" "Ludo2" "admin"
      ⟨1735725900000000, false⟩ ⟨1735725600000000, false⟩
      rfl (by decide) rfl rfl (by decide) (by decide) rfl rfl rfl rfl rfl rfl
      (by decide) (by decide)).2.1 (by decide) (by decide)

/-- Witness for C2: a singleton batch inserted on the first POST no-ops on
the second. -/
theorem C2_witness :
    receive_users_for_sync "tok" (some "tok") (some [jFresh]) [rFresh] "N2"
      = (.okResp 0 0 [] "N2", [rFresh]) :=
  C2_idempotent_merge "tok" [jFresh] [] [rFresh] 0 1 "N1" "N2"
    (by
      intro u hu
      rw [List.mem_singleton.mp hu]
      exact ⟨5, "2025-01-01T09:00:00", ⟨1735722000000000, false⟩, rfl, rfl, by decide⟩)
    (by simp)
    (by decide)

/-- Witness for C3: a null-timestamp record for the existing id 1 is
quarantined, and a null-timestamp record for the absent id 7 is
inserted. -/
theorem C3_witness :
    processUser [rAlice] jNullUpd
      = .ok ([rAlice], .conflictO
          { cid := 1, username := some "alice", reason := "missing_timestamp" }) ∧
    processUser [rAlice] jNullTs
      = .ok ([rAlice] ++ [insertedRow jNullTs 7 "zed" "hash-z" "Zeta" "Zan" "paziente"],
             .insertedO) :=
  ⟨C3_null_timestamp.1 [rAlice] jNullUpd 1 rAlice (some "alice") rfl (by decide) rfl rfl,
   (C3_null_timestamp.2 [rAlice] jNullTs 7 "zed" "hash-z" "Zeta" "Zan" "paziente"
      rfl (by decide) rfl rfl rfl rfl rfl (by decide) (by decide) rfl).1⟩

/-- Witness for C4: the fresh record with absent id 5 is inserted and
counted. -/
theorem C4_witness :
    processUser [rAlice] jFresh
      = .ok ([rAlice] ++ [insertedRow jFresh 5 "frank" "hash-f" "Fra" "Nk" "medico"],
             .insertedO) ∧
    runBatchAux [rAlice] 0 0 [] [jFresh]
      = runBatchAux ([rAlice] ++ [insertedRow jFresh 5 "frank" "hash-f" "Fra" "Nk" "medico"])
          0 1 [] [] :=
  have h := @C4_insert_new [rAlice] jFresh 5 "frank" "hash-f" "Fra" "Nk" "medico"
    rfl (by decide) rfl rfl rfl rfl rfl (by decide) (by decide)
  ⟨h.1, h.2 0 0 [] []⟩

/-- Witness for C5: after `jMerge` wins the merge, the stored row's
`created_at` is the incoming value. -/
theorem C5_witness : rMerged.created_at = pyGet jMerge.created_at :=
  @C5_created_at_update [rAlice] [rMerged] jMerge 1 (by rfl) rfl rMerged
    (by simp) rfl

/-- Witness for C6: the spec's concrete scenario, and the verbatim
property applied to it. -/
theorem C6_witness :
    rMerged.updated_at = some "2025-01-01T10:05:00" ∧
    receive_users_for_sync "test123" (some "test123") (some [jMerge]) [rAlice] "NOW"
      = (.okResp 1 0 [] "NOW", [rMerged]) :=
  ⟨C6_updated_at_verbatim.1 [rAlice] [rMerged] jMerge 1
      (some "2025-01-01T10:05:00") (by rfl) rfl rfl rMerged (by simp) rfl,
   (C6_updated_at_verbatim.2 "NOW").1⟩

/-- Witness for C7: the unparseable-timestamp record against the existing
id 1 is classified per-record and the loop continues with its sibling. -/
theorem C7_witness :
    processUser [rAlice] jBadTs
      = .ok ([rAlice], .conflictO
          { cid := 1, username := some "alice", reason := "timestamp_parse_error" }) ∧
    runBatchAux [rAlice] 0 0 [] [jBadTs, jFresh]
      = runBatchAux [rAlice] 0 0
          [{ cid := 1, username := some "alice", reason := "timestamp_parse_error" }]
          [jFresh] :=
  have h := @C7_parse_error_per_record [rAlice] jBadTs 1 rAlice (some "alice")
    "not-a-date" "2025-01-01T10:00:00"
    rfl (by decide) rfl rfl (by decide) rfl (by decide) (by decide)
  ⟨h.1, h.2 0 0 [] [jFresh]⟩

/-- Witness for C8: a missing token is rejected with 401 on both
endpoints, the table untouched. -/
theorem C8_witness :
    get_users_for_sync "test123" none [rAlice] "NOW" = .http401 ∧
    receive_users_for_sync "test123" none (some [jMerge]) [rAlice] "NOW"
      = (.http401, [rAlice]) :=
  ⟨(C8_auth_gate (by decide) [rAlice] [] (some [jMerge]) "NOW").1,
   (C8_auth_gate (by decide) [rAlice] [] (some [jMerge]) "NOW").2.2⟩

/-- Witness for C9: a concrete login leaves `updated_at` alone while
registration and an admin edit stamp it with the current time. -/
theorem C9_witness :
    login [rAlice] [] "alice" "x" (fun _ _ => true) "tk" "ex" "T2"
      = (true, [rAliceLogin],
         [{ user_id := 1, session_token := "tk", expires_at := "ex" }]) ∧
    rAliceLogin.updated_at = rAlice.updated_at ∧
    register_user [rAlice] "gina" "pw" "Gina" "Gi" "paziente"
        (fun s => "H-" ++ s) 9 "T3" = (true, [rAlice, rReg]) ∧
    rReg.updated_at = some "T3" ∧
    update_user [rAlice] 1 (some "NewName") none none none
        (fun s => "H-" ++ s) "T4" = (true, [rAliceUpd]) ∧
    rAliceUpd.updated_at = some "T4" :=
  ⟨(C9_updated_at_policy.1 [rAlice] [] "alice" "x" (fun _ _ => true)
      "tk" "ex" "T2" rAlice (by decide) rfl).1,
   rfl,
   C9_updated_at_policy.2.1 [rAlice] "gina" "pw" "Gina" "Gi" "paziente"
     (fun s => "H-" ++ s) 9 "T3" (by decide) (by decide),
   rfl,
   (C9_updated_at_policy.2.2 [rAlice] 1 (some "NewName") none none none
     (fun s => "H-" ++ s) "T4" (by decide) (by decide) (by decide)).1,
   rfl⟩

/-- Witness for C10: the batch `[jFresh, jNoName]` raises `KeyError` on
its second record, the request fails with 500, and `jFresh`'s insert is
rolled back: the table is returned unchanged. -/
theorem C10_witness :
    runBatch [rAlice] [jFresh, jNoName] = .error .keyError ∧
    receive_users_for_sync "test123" (some "test123") (some [jFresh, jNoName])
        [rAlice] "NOW"
      = (.http500, [rAlice]) :=
  ⟨by rfl, @C10_batch_rollback [rAlice] [jFresh, jNoName] .keyError
     "test123" "NOW" (by rfl)⟩

end WotSync
